import Mathlib

/-!
# CamBallToe: disparity, depth and point cloud

A shallow embedding of the numeric core of `examples/zed_oc_depth_example.cpp`
and `src/detectball_test.cpp`: the extraction of the depth map from the
disparity map and the loop that fills the point cloud buffer.

Floating point values are embedded with their special values kept apart
(`NaN`, the two infinities, the two zeros); the finite values are rationals.
Comparisons, `isinf` and the special cases of the arithmetic follow IEEE 754,
which is what the C++ operators on `float` and `double` do.

The operations `Fp.add`, `Fp.mul`, `Fp.div` give the exact result.  The
blocks of the programs are embedded twice: over exact arithmetic
(`extractDepthMap`, `backProject`, `createPointCloud`), for what depends on
the comparisons, the indices and the flow of the data only, and with the
roundings to `double` and `float` of every operation and store
(`extractDepthMap_ieee`, `backProject_ieee`, `createPointCloud_ieee`), for
the values that the programs compute.
-/

namespace CamBallToe

/-! ## Floating point values -/

/-- Values of a C++ `float` or `double`: the finite ones are exact rationals,
`fin 0` is the positive zero and `nzero` the negative zero. -/
inductive Fp where
  | nan : Fp
  | pinf : Fp
  | ninf : Fp
  | nzero : Fp
  | fin (q : ℚ) : Fp
  deriving DecidableEq, Repr

namespace Fp

/-- The value of `std::isnan`. -/
def isnan : Fp → Bool
  | nan => true
  | _ => false

/-- The value of `isinf`, as the loops call it. -/
def isinf : Fp → Bool
  | pinf => true
  | ninf => true
  | _ => false

/-- Finite values: neither a NaN nor an infinity. -/
def isFinite : Fp → Bool
  | nan => false
  | pinf => false
  | ninf => false
  | _ => true

/-- Both zeros. -/
def isZero : Fp → Bool
  | nzero => true
  | fin q => decide (q = 0)
  | _ => false

/-- The sign bit (of a NaN: not used). -/
def signBit : Fp → Bool
  | nan => false
  | pinf => false
  | ninf => true
  | nzero => true
  | fin q => decide (q < 0)

/-- The rational value of a finite value (both zeros are 0); 0 elsewhere. -/
def toRat : Fp → ℚ
  | fin q => q
  | _ => 0

/-- The rational value of a finite value, `none` for NaN and the infinities. -/
def toRat? : Fp → Option ℚ
  | nan => none
  | pinf => none
  | ninf => none
  | nzero => some 0
  | fin q => some q

/-- The infinity of sign bit `s`. -/
def mkInf (s : Bool) : Fp := if s then ninf else pinf

/-- The zero of sign bit `s`. -/
def mkZero (s : Bool) : Fp := if s then nzero else fin 0

/-- The finite result `q` of an operation: a zero result takes the sign `s`
that the operation gives to zeros. -/
def mkFin (s : Bool) (q : ℚ) : Fp := if q = 0 then mkZero s else fin q

/-- Conversion of an `int` or `size_t` value to floating point. -/
def ofInt (i : Int) : Fp := fin (i : ℚ)

/-- Unary minus. -/
def neg : Fp → Fp
  | nan => nan
  | pinf => ninf
  | ninf => pinf
  | nzero => fin 0
  | fin q => if q = 0 then nzero else fin (-q)

/-- Multiplication `x * y`: the exact product (the rounding to a format is
`Fp.roundTo`). -/
def mul (x y : Fp) : Fp :=
  if x.isnan || y.isnan then nan
  else if x.isinf || y.isinf then
    (if x.isZero || y.isZero then nan else mkInf (xor x.signBit y.signBit))
  else mkFin (xor x.signBit y.signBit) (x.toRat * y.toRat)

/-- Division `x / y`: the exact quotient (the rounding to a format is
`Fp.roundTo`). -/
def div (x y : Fp) : Fp :=
  if x.isnan || y.isnan then nan
  else if x.isinf then
    (if y.isinf then nan else mkInf (xor x.signBit y.signBit))
  else if y.isinf then mkZero (xor x.signBit y.signBit)
  else if y.isZero then
    (if x.isZero then nan else mkInf (xor x.signBit y.signBit))
  else mkFin (xor x.signBit y.signBit) (x.toRat / y.toRat)

/-- Addition `x + y`: the exact sum (the rounding to a format is `Fp.roundTo`;
round to nearest: an exact zero sum is the positive zero unless both operands
are the negative zero). -/
def add (x y : Fp) : Fp :=
  if x.isnan || y.isnan then nan
  else if x.isinf then
    (if y.isinf && (x.signBit != y.signBit) then nan else x)
  else if y.isinf then y
  else mkFin (x.signBit && y.signBit) (x.toRat + y.toRat)

/-- Subtraction `x - y`. -/
def sub (x y : Fp) : Fp := add x (neg y)

/-- The comparison `x < y`: false as soon as an operand is a NaN. -/
def lt : Fp → Fp → Bool
  | nan, _ => false
  | _, nan => false
  | pinf, _ => false
  | _, ninf => false
  | ninf, _ => true
  | _, pinf => true
  | x, y => decide (x.toRat < y.toRat)

/-- The comparison `x > y`. -/
def gt (x y : Fp) : Bool := lt y x

/-- The comparison `x == y`: false as soon as an operand is a NaN, and the
two zeros are equal. -/
def eq : Fp → Fp → Bool
  | nan, _ => false
  | _, nan => false
  | pinf, y => y.isinf && !y.signBit
  | ninf, y => y.isinf && y.signBit
  | _, pinf => false
  | _, ninf => false
  | x, y => decide (x.toRat = y.toRat)

/-- The comparison `x >= y`. -/
def ge (x y : Fp) : Bool := lt y x || eq x y

end Fp

/-! ## Matrices and machine integers -/

/-- A continuous `cv::Mat` (or `cv::UMat`) with one channel of type `α`:
`data` holds the elements row after row. -/
structure Mat (α : Type) where
  rows : Nat
  cols : Nat
  data : List α
  deriving DecidableEq, Repr

/-- A matrix holds `rows * cols` elements and its dimensions are values of
an `int`. -/
def Mat.WF {α : Type} (m : Mat α) : Prop :=
  m.data.length = m.rows * m.cols ∧ m.rows < 2 ^ 31 ∧ m.cols < 2 ^ 31

/-- A `cv::Vec3f` or `cv::Vec3d`: the three channels `val[0]`, `val[1]`,
`val[2]`. -/
structure Vec3 where
  val0 : Fp
  val1 : Fp
  val2 : Fp
  deriving DecidableEq, Repr

/-- The vector `cv::Vec3f::all(v)`. -/
def Vec3.all (v : Fp) : Vec3 := ⟨v, v, v⟩

/-- The value every slot of the buffer starts with:
`cv::Vec3f::all(std::numeric_limits<float>::quiet_NaN())`. -/
def sentinel : Vec3 := Vec3.all Fp.nan

/-- A value of a 32 bit signed `int`, wrapped in two's complement. -/
def wrapInt32 (x : Int) : Int := (x + 2 ^ 31) % 2 ^ 32 - 2 ^ 31

/-- The product of two `int` values, computed in `int`. -/
def mulInt32 (a b : Int) : Int := wrapInt32 (a * b)

/-- The conversion of an `int` to `size_t` (64 bit). -/
def toSizeT (x : Int) : Nat := (x % 2 ^ 64).toNat

/-- The two programs. -/
inductive Program where
  | zed_oc_depth_example : Program
  | detectball_test : Program
  deriving DecidableEq, Repr

/-! ## Depth map -/

/-- The call `cv::divide(scale, src2, dst)` on floating point matrices: each
element of `dst` is `scale / src2`, an IEEE division (the behaviour OpenCV 4
documents for floating point data, and the formula of the comment in the
programs: `depth = (f * B) / disparity`). -/
def cvDivide (scale : Fp) (src2 : Mat Fp) : Mat Fp :=
  { rows := src2.rows, cols := src2.cols, data := src2.data.map (fun d => Fp.div scale d) }

/-- The call `cv::add(src1, s, dst)` with a scalar `s`. -/
def cvAdd (src1 : Mat Fp) (s : Fp) : Mat Fp :=
  { rows := src1.rows, cols := src1.cols, data := src1.data.map (fun d => Fp.add d s) }

/-- The first statement of the block "Show disparity image":
`cv::add(left_disp_float, -static_cast<float>(stereoPar.minDisparity-1), left_disp_float)`.
The result is the new content of `left_disp_float`. -/
def minDisparityOffset (minDisparity : Int) (left_disp_float : Mat Fp) : Mat Fp :=
  cvAdd left_disp_float (Fp.neg (Fp.ofInt (wrapInt32 (minDisparity - 1))))

/-- The block "Extract Depth map" over exact arithmetic: `num = fx*baseline`,
then `cv::divide(num, left_disp_float, left_depth_map)`.  The result is
`left_depth_map`; `extractDepthMap_ieee` is the block with the conversion of
`num` and the roundings. -/
def extractDepthMap (fx baseline : Fp) (left_disp_float : Mat Fp) : Mat Fp :=
  let num := Fp.mul fx baseline
  cvDivide num left_disp_float

/-- The blocks "Show disparity image" and "Extract Depth map" one after the
other, as both programs run them on the normalized disparity
`left_disp_float`: the first one writes `left_disp_float` in place. -/
def disparityToDepth (minDisparity : Int) (fx baseline : Fp) (left_disp_float : Mat Fp) :
    Mat Fp :=
  let left_disp_float := minDisparityOffset minDisparity left_disp_float
  extractDepthMap fx baseline left_disp_float

/-! ## Point cloud -/

/-- The test of the loop body:
`!isinf(depth) && depth >= 0 && depth > stereoPar.minDepth_mm && depth < stereoPar.maxDepth_mm`. -/
def accepted (depth minDepth_mm maxDepth_mm : Fp) : Bool :=
  !Fp.isinf depth && Fp.ge depth (Fp.ofInt 0) && Fp.gt depth minDepth_mm &&
    Fp.lt depth maxDepth_mm

/-- The three stores of the loop body over exact arithmetic: `val[2] = depth`,
`val[0] = (c-cx)*depth/fx`, `val[1] = (r-cy)*depth/fy`, for the integers `r`
and `c` converted to floating point; `backProject_ieee` is the same with the
roundings of the operations and of the store. -/
def backProject (r c : Int) (depth fx fy cx cy : Fp) : Vec3 :=
  { val0 := Fp.div (Fp.mul (Fp.sub (Fp.ofInt c) cx) depth) fx
    val1 := Fp.div (Fp.mul (Fp.sub (Fp.ofInt r) cy) depth) fy
    val2 := depth }

/-- One iteration of the loop of `zed_oc_depth_example.cpp` at `int idx`:
`none` when it divides by zero or reads or writes outside `depth_vec` or
`buffer`. -/
def loopBody_example (cols : Int) (depth_vec : List Fp)
    (fx fy cx cy minDepth_mm maxDepth_mm : Fp) (buffer : List Vec3) (idx : Int) :
    Option (List Vec3) :=
  if cols = 0 then none
  else
    let r : Int := Int.tdiv idx cols
    let c : Int := Int.tmod idx cols
    match depth_vec[idx.toNat]? with
    | none => none
    | some depth =>
      if accepted depth minDepth_mm maxDepth_mm then
        if idx.toNat < buffer.length then
          some (buffer.set idx.toNat (backProject r c depth fx fy cx cy))
        else none
      else some buffer

/-- One iteration of the loop of `detectball_test.cpp` at `size_t idx`: `cols`
is converted to `size_t` for the division and the remainder. -/
def loopBody_detectball (cols : Int) (depth_vec : List Fp)
    (fx fy cx cy minDepth_mm maxDepth_mm : Fp) (buffer : List Vec3) (idx : Nat) :
    Option (List Vec3) :=
  if toSizeT cols = 0 then none
  else
    let r : Nat := idx / toSizeT cols
    let c : Nat := idx % toSizeT cols
    match depth_vec[idx]? with
    | none => none
    | some depth =>
      if accepted depth minDepth_mm maxDepth_mm then
        if idx < buffer.length then
          some (buffer.set idx (backProject r c depth fx fy cx cy))
        else none
      else some buffer

/-- The block "Create Point Cloud" of `zed_oc_depth_example.cpp` over exact
arithmetic: the result is `cloudMat`, `none` when the vector cannot be built
or an access is out of bounds.  The clone is taken as the matrix of the
dimensions of the depth map; what the last statement does with an empty
buffer is in `cloneBuffer`. -/
def createPointCloud_example (left_depth_map : Mat Fp)
    (fx fy cx cy minDepth_mm maxDepth_mm : Fp) : Option (Mat Vec3) :=
  let buf_size : Int := mulInt32 left_depth_map.cols left_depth_map.rows
  if buf_size < 0 then none
  else
    let buffer := List.replicate buf_size.toNat sentinel
    let depth_vec := left_depth_map.data
    match (List.range buf_size.toNat).foldlM
        (fun buffer (idx : Nat) => loopBody_example left_depth_map.cols depth_vec
          fx fy cx cy minDepth_mm maxDepth_mm buffer (idx : Int)) buffer with
    | none => none
    | some buffer =>
      if left_depth_map.rows * left_depth_map.cols ≤ buffer.length then
        some { rows := left_depth_map.rows, cols := left_depth_map.cols,
               data := buffer.take (left_depth_map.rows * left_depth_map.cols) }
      else none

/-- The block "Create Point Cloud" of `detectball_test.cpp`: `buf_size` is
the `int` product converted to `size_t`; a vector of `2 ^ 63` elements or
more cannot be built. -/
def createPointCloud_detectball (left_depth_map : Mat Fp)
    (fx fy cx cy minDepth_mm maxDepth_mm : Fp) : Option (Mat Vec3) :=
  let buf_size : Nat := toSizeT (mulInt32 left_depth_map.cols left_depth_map.rows)
  if 2 ^ 63 ≤ buf_size then none
  else
    let buffer := List.replicate buf_size sentinel
    let depth_vec := left_depth_map.data
    match (List.range buf_size).foldlM
        (fun buffer (idx : Nat) => loopBody_detectball left_depth_map.cols depth_vec
          fx fy cx cy minDepth_mm maxDepth_mm buffer idx) buffer with
    | none => none
    | some buffer =>
      if left_depth_map.rows * left_depth_map.cols ≤ buffer.length then
        some { rows := left_depth_map.rows, cols := left_depth_map.cols,
               data := buffer.take (left_depth_map.rows * left_depth_map.cols) }
      else none

/-- The block "Create Point Cloud" of either program. -/
def createPointCloud (p : Program) (left_depth_map : Mat Fp)
    (fx fy cx cy minDepth_mm maxDepth_mm : Fp) : Option (Mat Vec3) :=
  match p with
  | Program.zed_oc_depth_example =>
    createPointCloud_example left_depth_map fx fy cx cy minDepth_mm maxDepth_mm
  | Program.detectball_test =>
    createPointCloud_detectball left_depth_map fx fy cx cy minDepth_mm maxDepth_mm

/-- The content of slot `idx` after the loop, for a grid of `cols` columns
whose depth at `idx` is `depth`: the back projection of pixel
`(idx / cols, idx % cols)` when the depth is accepted, the initial value
otherwise. -/
def slotOf (cols : Nat) (fx fy cx cy minDepth_mm maxDepth_mm : Fp) (idx : Nat) (depth : Fp) :
    Vec3 :=
  if accepted depth minDepth_mm maxDepth_mm then
    backProject ((idx / cols : Nat) : Int) ((idx % cols : Nat) : Int) depth fx fy cx cy
  else sentinel

/-- The cloud matrix in closed form: slot `idx` is `slotOf` at the depth of
`idx`. -/
def cloudOf (left_depth_map : Mat Fp) (fx fy cx cy minDepth_mm maxDepth_mm : Fp) : Mat Vec3 :=
  { rows := left_depth_map.rows, cols := left_depth_map.cols,
    data := (List.range (left_depth_map.rows * left_depth_map.cols)).map (fun idx =>
      slotOf left_depth_map.cols fx fy cx cy minDepth_mm maxDepth_mm idx
        (left_depth_map.data.getD idx Fp.nan)) }

/-! ## Stereo matching output -/

/-- The call `left_disp_half.convertTo(left_disp_float, CV_32FC1)` on the
16 bit fixed point output of the matcher. -/
def convertTo (left_disp_half : Mat Int) : Mat Fp :=
  { rows := left_disp_half.rows, cols := left_disp_half.cols,
    data := left_disp_half.data.map Fp.ofInt }

/-- The call `cv::multiply(src1, s, dst)` with a scalar `s`. -/
def cvMultiply (src1 : Mat Fp) (s : Fp) : Mat Fp :=
  { rows := src1.rows, cols := src1.cols, data := src1.data.map (fun d => Fp.mul d s) }

/-- The factor `resize_fact` of the block "Stereo matching": 0.5 when
`USE_HALF_SIZE_DISP` is defined (both programs define it), 1 otherwise. -/
def resize_fact (USE_HALF_SIZE_DISP : Bool) : Fp :=
  if USE_HALF_SIZE_DISP then Fp.fin (1 / 2) else Fp.fin 1

/-- The statements of the block "Stereo matching" between the matcher and the
resize: `convertTo`, `cv::multiply(left_disp_float, 1.f/16.f, left_disp_float)`
and, under `USE_HALF_SIZE_DISP`, `cv::multiply(left_disp_float, 2.f, left_disp_float)`. -/
def normalizeDisparity (USE_HALF_SIZE_DISP : Bool) (left_disp_half : Mat Int) : Mat Fp :=
  let left_disp_float := convertTo left_disp_half
  let left_disp_float := cvMultiply left_disp_float (Fp.div (Fp.fin 1) (Fp.fin 16))
  if USE_HALF_SIZE_DISP then cvMultiply left_disp_float (Fp.fin 2) else left_disp_float

/-- The block "Stereo matching" after the matcher: the normalization and,
under `USE_HALF_SIZE_DISP`, the call
`cv::resize(left_disp_float, left_disp_float, cv::Size(), 1./resize_fact, 1./resize_fact, cv::INTER_AREA)`.
The library function is the parameter `cvResize`, which takes the factor. -/
def stereoMatching (cvResize : Fp → Mat Fp → Mat Fp) (USE_HALF_SIZE_DISP : Bool)
    (left_disp_half : Mat Int) : Mat Fp :=
  let left_disp_float := normalizeDisparity USE_HALF_SIZE_DISP left_disp_half
  if USE_HALF_SIZE_DISP then
    cvResize (Fp.div (Fp.fin 1) (resize_fact USE_HALF_SIZE_DISP)) left_disp_float
  else left_disp_float

/-! ## Ball detector -/

/-- The outcome of one iteration of the loop over the detected circles. -/
inductive CircleResult where
  | skipped : CircleResult
  | processed (depth : Fp) : CircleResult
  deriving DecidableEq, Repr

/-- The test that makes the loop skip a circle:
`center.x - radius < 0 || center.y - radius < 0 ||
 center.x + radius >= left_depth_map.cols || center.y + radius >= left_depth_map.rows`,
in `int` arithmetic. -/
def circleSkipped (cols rows x y radius : Int) : Bool :=
  decide (wrapInt32 (x - radius) < 0) || decide (wrapInt32 (y - radius) < 0) ||
    decide (wrapInt32 (x + radius) ≥ cols) || decide (wrapInt32 (y + radius) ≥ rows)

/-- One iteration of the loop "find circle and calculate its depth" of
`detectball_test.cpp` for the rounded centre `(x, y)` and the rounded radius:
the circle is skipped, or the depth is read at `(center.y, center.x)` and the
circle is drawn; `none` when the read is outside the depth map. -/
def processCircle (left_depth_map : Mat Fp) (x y radius : Int) : Option CircleResult :=
  if circleSkipped left_depth_map.cols left_depth_map.rows x y radius then
    some CircleResult.skipped
  else if 0 ≤ y ∧ y < left_depth_map.rows ∧ 0 ≤ x ∧ x < left_depth_map.cols then
    match left_depth_map.data[(y * left_depth_map.cols + x).toNat]? with
    | none => none
    | some depth => some (CircleResult.processed depth)
  else none

/-! ## Capture loop -/

/-- What the programs read of a delivered `sl_oc::video::Frame`: whether
`frame.data` is not null, `frame.timestamp`, and the output `left_disp_half`
of the matcher for the images of the frame. -/
structure Frame where
  data : Bool
  timestamp : Nat
  left_disp_half : Mat Int
  deriving DecidableEq, Repr

/-- The values that are set before the capture loop and constant in it: the
calibration and the fields of `stereoPar` that the loop reads. -/
structure Session where
  fx : Fp
  fy : Fp
  cx : Fp
  cy : Fp
  baseline : Fp
  minDisparity : Int
  minDepth_mm : Fp
  maxDepth_mm : Fp
  deriving DecidableEq, Repr

/-- The variables that live across the iterations of the capture loop:
`last_ts` and `cloudMat`; `processed` records the timestamps of the frames
that went through the body of the `if`. -/
structure GrabState where
  last_ts : Nat
  cloudMat : Mat Vec3
  processed : List Nat
  deriving DecidableEq, Repr

/-- The state before the loop: `last_ts = 0` and an empty `cloudMat`. -/
def GrabState.init : GrabState := { last_ts := 0, cloudMat := ⟨0, 0, []⟩, processed := [] }

/-- The body of `if(frame.data!=nullptr && frame.timestamp!=last_ts)` from the
matcher output to `cloudMat`. -/
def processFrame (p : Program) (cvResize : Fp → Mat Fp → Mat Fp) (s : Session)
    (frame : Frame) : Option (Mat Vec3) :=
  let left_disp_float := stereoMatching cvResize true frame.left_disp_half
  let left_depth_map := disparityToDepth s.minDisparity s.fx s.baseline left_disp_float
  createPointCloud p left_depth_map s.fx s.fy s.cx s.cy s.minDepth_mm s.maxDepth_mm

/-- One delivery of a frame by `cap.getLastFrame()` in the capture loop. -/
def grabStep (p : Program) (cvResize : Fp → Mat Fp → Mat Fp) (s : Session)
    (st : GrabState) (frame : Frame) : Option GrabState :=
  if frame.data && frame.timestamp != st.last_ts then
    let last_ts := frame.timestamp
    match processFrame p cvResize s frame with
    | none => none
    | some cloudMat =>
      some { last_ts := last_ts, cloudMat := cloudMat,
             processed := st.processed ++ [frame.timestamp] }
  else some st

/-- The capture loop over the frames delivered one after the other. -/
def grabLoop (p : Program) (cvResize : Fp → Mat Fp → Mat Fp) (s : Session)
    (st : GrabState) (frames : List Frame) : Option GrabState :=
  frames.foldlM (grabStep p cvResize s) st

/-- A frame whose disparity map after the resize is a well formed matrix of
fewer than `2 ^ 31` elements. -/
def Frame.WF (cvResize : Fp → Mat Fp → Mat Fp) (frame : Frame) : Prop :=
  (stereoMatching cvResize true frame.left_disp_half).WF ∧
    (stereoMatching cvResize true frame.left_disp_half).rows *
      (stereoMatching cvResize true frame.left_disp_half).cols < 2 ^ 31

/-- A concrete resize for the examples: every cell becomes a 2x2 block. -/
def upsample2 (m : Mat Fp) : Mat Fp :=
  { rows := 2 * m.rows, cols := 2 * m.cols,
    data := (List.range (2 * m.rows * (2 * m.cols))).map (fun i =>
      m.data.getD ((i / (2 * m.cols)) / 2 * m.cols + (i % (2 * m.cols)) / 2) Fp.nan) }

/-! ## Rounding

The definitions above compute with exact rationals.  The definitions of
this part round: `Fp.toFloat` and `Fp.toDouble` are the conversions to
binary32 and binary64 (round to nearest, ties to even), and an operation on
`double` values is the exact operation followed by `Fp.toDouble`. -/

/-- Rounding of a rational to the nearest integer, ties to the even one. -/
def roundHalfEven (x : ℚ) : Int :=
  let f : Int := ⌊x⌋
  if x - f < 1 / 2 then f
  else if 1 / 2 < x - f then f + 1
  else if f % 2 = 0 then f else f + 1

/-- Rounding of a non zero rational to the binary format of `p` bits of
precision and maximal exponent `emax` (round to nearest, ties to even, with
subnormal values, overflow to an infinity and underflow to a zero). -/
def roundRat (p : Nat) (emax : Int) (q : ℚ) : Fp :=
  let a : ℚ := |q|
  let e : Int := max (Int.log 2 a) (1 - emax)
  let u : ℚ := 2 ^ (e - ((p : Int) - 1))
  let v : ℚ := (roundHalfEven (a / u) : ℚ) * u
  if 2 ^ (emax + 1) ≤ v then Fp.mkInf (decide (q < 0))
  else Fp.mkFin (decide (q < 0)) (if q < 0 then -v else v)

/-- Rounding of a value to a binary format: a NaN, an infinity and a zero
are kept. -/
def Fp.roundTo (p : Nat) (emax : Int) : Fp → Fp
  | Fp.fin q => if q = 0 then Fp.fin 0 else roundRat p emax q
  | x => x

/-- Conversion to `float` (binary32). -/
def Fp.toFloat (x : Fp) : Fp := Fp.roundTo 24 127 x

/-- Conversion to `double` (binary64), and the rounding of the result of an
operation on `double` values. -/
def Fp.toDouble (x : Fp) : Fp := Fp.roundTo 53 1023 x

/-! ## The depth map and the point cloud with rounding -/

/-- The variable `num` of the block "Extract Depth map":
`float num = static_cast<float>(fx*baseline)` in `zed_oc_depth_example.cpp`,
`double num = static_cast<double>(fx * baseline)` in `detectball_test.cpp`;
`fx` and `baseline` are `double` values. -/
def num_ieee (p : Program) (fx baseline : Fp) : Fp :=
  match p with
  | Program.zed_oc_depth_example => Fp.toFloat (Fp.toDouble (Fp.mul fx baseline))
  | Program.detectball_test => Fp.toDouble (Fp.mul fx baseline)

/-- The call `cv::divide(scale, src2, dst)` on a `float` matrix: each element
of `dst` is `scale / src2`, an IEEE division (the behaviour OpenCV 4 documents
for floating point data), rounded to `float`. -/
def cvDivide_ieee (scale : Fp) (src2 : Mat Fp) : Mat Fp :=
  { rows := src2.rows, cols := src2.cols,
    data := src2.data.map (fun d => Fp.toFloat (Fp.div scale d)) }

/-- The block "Extract Depth map" with its roundings: the result is
`left_depth_map`. -/
def extractDepthMap_ieee (p : Program) (fx baseline : Fp) (left_disp_float : Mat Fp) : Mat Fp :=
  let num := num_ieee p fx baseline
  cvDivide_ieee num left_disp_float

/-- The three stores of the loop body with their roundings: `c - cx`, the
product by `depth` and the quotient by `fx` are operations on `double`
values; `zed_oc_depth_example.cpp` stores into a `cv::Vec3f`, which converts
to `float`, `detectball_test.cpp` into a `cv::Vec3d`.  `depth` is a `float`
value (converted to `double` in the second program), stored as it is. -/
def backProject_ieee (p : Program) (r c : Int) (depth fx fy cx cy : Fp) : Vec3 :=
  let X := Fp.toDouble (Fp.div (Fp.toDouble (Fp.mul (Fp.toDouble (Fp.sub (Fp.ofInt c) cx)) depth)) fx)
  let Y := Fp.toDouble (Fp.div (Fp.toDouble (Fp.mul (Fp.toDouble (Fp.sub (Fp.ofInt r) cy)) depth)) fy)
  match p with
  | Program.zed_oc_depth_example => { val0 := Fp.toFloat X, val1 := Fp.toFloat Y, val2 := depth }
  | Program.detectball_test => { val0 := X, val1 := Y, val2 := depth }

/-- One iteration of the loop of `zed_oc_depth_example.cpp` at `int idx`, with
the roundings of the stores. -/
def loopBody_example_ieee (cols : Int) (depth_vec : List Fp)
    (fx fy cx cy minDepth_mm maxDepth_mm : Fp) (buffer : List Vec3) (idx : Int) :
    Option (List Vec3) :=
  if cols = 0 then none
  else
    let r : Int := Int.tdiv idx cols
    let c : Int := Int.tmod idx cols
    match depth_vec[idx.toNat]? with
    | none => none
    | some depth =>
      if accepted depth minDepth_mm maxDepth_mm then
        if idx.toNat < buffer.length then
          some (buffer.set idx.toNat
            (backProject_ieee Program.zed_oc_depth_example r c depth fx fy cx cy))
        else none
      else some buffer

/-- One iteration of the loop of `detectball_test.cpp` at `size_t idx`, with
the roundings of the stores. -/
def loopBody_detectball_ieee (cols : Int) (depth_vec : List Fp)
    (fx fy cx cy minDepth_mm maxDepth_mm : Fp) (buffer : List Vec3) (idx : Nat) :
    Option (List Vec3) :=
  if toSizeT cols = 0 then none
  else
    let r : Nat := idx / toSizeT cols
    let c : Nat := idx % toSizeT cols
    match depth_vec[idx]? with
    | none => none
    | some depth =>
      if accepted depth minDepth_mm maxDepth_mm then
        if idx < buffer.length then
          some (buffer.set idx (backProject_ieee Program.detectball_test r c depth fx fy cx cy))
        else none
      else some buffer

/-- The statements of the block "Create Point Cloud" of
`zed_oc_depth_example.cpp` up to the end of the loop: `buf_size`, the vector
`buffer` of `buf_size` NaN vectors, and the loop.  The result is `buffer`. -/
def pointCloudLoop_example (left_depth_map : Mat Fp)
    (fx fy cx cy minDepth_mm maxDepth_mm : Fp) : Option (List Vec3) :=
  let buf_size : Int := mulInt32 left_depth_map.cols left_depth_map.rows
  if buf_size < 0 then none
  else
    let buffer := List.replicate buf_size.toNat sentinel
    let depth_vec := left_depth_map.data
    (List.range buf_size.toNat).foldlM
      (fun buffer (idx : Nat) => loopBody_example_ieee left_depth_map.cols depth_vec
        fx fy cx cy minDepth_mm maxDepth_mm buffer (idx : Int)) buffer

/-- The statements of the block "Create Point Cloud" of `detectball_test.cpp`
up to the end of the loop. -/
def pointCloudLoop_detectball (left_depth_map : Mat Fp)
    (fx fy cx cy minDepth_mm maxDepth_mm : Fp) : Option (List Vec3) :=
  let buf_size : Nat := toSizeT (mulInt32 left_depth_map.cols left_depth_map.rows)
  if 2 ^ 63 ≤ buf_size then none
  else
    let buffer := List.replicate buf_size sentinel
    let depth_vec := left_depth_map.data
    (List.range buf_size).foldlM
      (fun buffer (idx : Nat) => loopBody_detectball_ieee left_depth_map.cols depth_vec
        fx fy cx cy minDepth_mm maxDepth_mm buffer idx) buffer

/-- The loop of either program. -/
def pointCloudLoop (p : Program) (left_depth_map : Mat Fp)
    (fx fy cx cy minDepth_mm maxDepth_mm : Fp) : Option (List Vec3) :=
  match p with
  | Program.zed_oc_depth_example =>
    pointCloudLoop_example left_depth_map fx fy cx cy minDepth_mm maxDepth_mm
  | Program.detectball_test =>
    pointCloudLoop_detectball left_depth_map fx fy cx cy minDepth_mm maxDepth_mm

/-- The last statement of the block:
`cloudMat = cv::Mat(rows, cols, type, &buffer[0]).clone()`.  Taking
`&buffer[0]` of an empty vector is not defined; otherwise the clone copies
`rows * cols` elements of `buffer`. -/
def cloneBuffer (rows cols : Nat) (buffer : List Vec3) : Option (Mat Vec3) :=
  if buffer.length = 0 then none
  else if rows * cols ≤ buffer.length then
    some { rows := rows, cols := cols, data := buffer.take (rows * cols) }
  else none

/-- The block "Create Point Cloud" of either program with its roundings: the
loop, then the clone.  The result is `cloudMat`. -/
def createPointCloud_ieee (p : Program) (left_depth_map : Mat Fp)
    (fx fy cx cy minDepth_mm maxDepth_mm : Fp) : Option (Mat Vec3) :=
  match pointCloudLoop p left_depth_map fx fy cx cy minDepth_mm maxDepth_mm with
  | none => none
  | some buffer => cloneBuffer left_depth_map.rows left_depth_map.cols buffer

/-- The content of slot `idx` after the loop with roundings, for a grid of
`cols` columns whose depth at `idx` is `depth`. -/
def slotOf_ieee (p : Program) (cols : Nat) (fx fy cx cy minDepth_mm maxDepth_mm : Fp)
    (idx : Nat) (depth : Fp) : Vec3 :=
  if accepted depth minDepth_mm maxDepth_mm then
    backProject_ieee p ((idx / cols : Nat) : Int) ((idx % cols : Nat) : Int) depth fx fy cx cy
  else sentinel

/-- The buffer after the loop with roundings, in closed form. -/
def bufferOf_ieee (p : Program) (left_depth_map : Mat Fp)
    (fx fy cx cy minDepth_mm maxDepth_mm : Fp) : List Vec3 :=
  (List.range (left_depth_map.rows * left_depth_map.cols)).map (fun idx =>
    slotOf_ieee p left_depth_map.cols fx fy cx cy minDepth_mm maxDepth_mm idx
      (left_depth_map.data.getD idx Fp.nan))

/-! ## Helper lemmas -/

theorem wrapInt32_eq (x : Int) (h1 : -(2 ^ 31) ≤ x) (h2 : x < 2 ^ 31) : wrapInt32 x = x := by
  unfold wrapInt32
  norm_num at h1 h2 ⊢
  omega

theorem toSizeT_eq (x : Int) (h1 : 0 ≤ x) (h2 : x < 2 ^ 64) : toSizeT x = x.toNat := by
  unfold toSizeT
  rw [Int.emod_eq_of_lt h1 h2]

/-- A loop over `0 .. k-1` whose iteration `idx` either stores `v idx` in slot
`idx` or leaves the buffer alone yields the buffer whose slots below `k` are
the stored values. -/
theorem foldlM_range_set (n : Nat) (body : List Vec3 → Nat → Option (List Vec3))
    (P : Nat → Bool) (v : Nat → Vec3)
    (hbody : ∀ buf idx, idx < n → buf.length = n →
      body buf idx = some (if P idx then buf.set idx (v idx) else buf)) :
    ∀ k, k ≤ n → (List.range k).foldlM body (List.replicate n sentinel)
      = some ((List.range n).map (fun i => if i < k ∧ P i = true then v i else sentinel)) := by
  intro k
  induction k with
  | zero =>
    intro _
    simp only [List.range_zero, List.foldlM_nil, Nat.not_lt_zero, false_and, if_false]
    congr 1
    apply List.ext_getElem
    · simp
    · intro i h1 h2
      simp
  | succ k ih =>
    intro hk
    rw [List.range_succ, List.foldlM_append, ih (by omega)]
    simp only [List.foldlM_cons, List.foldlM_nil, bind_pure, Option.bind_eq_bind,
      Option.some_bind]
    rw [hbody _ k (by omega) (by simp)]
    congr 1
    apply List.ext_getElem
    · split <;> simp
    · intro i h1 h2
      have hi : i < n := by simpa using h2
      by_cases hP : P k = true
      · simp only [hP, if_true, List.getElem_set, List.getElem_map, List.getElem_range]
        by_cases hik : k = i
        · subst hik
          simp [hP]
        · simp only [hik, if_false]
          have : (i < k + 1) = (i < k) := by
            apply propext; constructor <;> intro h <;> omega
          simp [this]
      · simp only [hP, List.getElem_map, List.getElem_range]
        by_cases hik : k = i
        · subst hik
          simp [hP]
        · have : (i < k + 1) = (i < k) := by
            apply propext; constructor <;> intro h <;> omega
          simp [this]

theorem loopBody_example_eq (cols : Nat) (depth_vec : List Fp)
    (fx fy cx cy mn mx : Fp) (buf : List Vec3) (idx : Nat)
    (hc : cols ≠ 0) (hd : idx < depth_vec.length) (hb : idx < buf.length) :
    loopBody_example (cols : Int) depth_vec fx fy cx cy mn mx buf (idx : Int)
      = some (if accepted (depth_vec.getD idx Fp.nan) mn mx = true then
          buf.set idx (backProject ((idx / cols : Nat) : Int) ((idx % cols : Nat) : Int)
            (depth_vec.getD idx Fp.nan) fx fy cx cy)
        else buf) := by
  unfold loopBody_example
  have hc2 : (cols : Int) ≠ 0 := by exact_mod_cast hc
  simp only [hc2, if_false, Int.toNat_ofNat, List.getElem?_eq_getElem hd, hb, if_true,
    List.getD_eq_getElem?_getD, Option.getD_some, ← Int.ofNat_tdiv, ← Int.ofNat_tmod]
  split <;> rfl

theorem loopBody_detectball_eq (cols : Nat) (depth_vec : List Fp)
    (fx fy cx cy mn mx : Fp) (buf : List Vec3) (idx : Nat)
    (hc : cols ≠ 0) (hc2 : cols < 2 ^ 31) (hd : idx < depth_vec.length) (hb : idx < buf.length) :
    loopBody_detectball (cols : Int) depth_vec fx fy cx cy mn mx buf idx
      = some (if accepted (depth_vec.getD idx Fp.nan) mn mx = true then
          buf.set idx (backProject ((idx / cols : Nat) : Int) ((idx % cols : Nat) : Int)
            (depth_vec.getD idx Fp.nan) fx fy cx cy)
        else buf) := by
  unfold loopBody_detectball
  have h64 : toSizeT (cols : Int) = cols := by
    rw [toSizeT_eq _ (by omega) (by norm_num at hc2 ⊢; omega)]
    simp
  simp only [h64, hc, if_false, List.getElem?_eq_getElem hd, hb, if_true,
    List.getD_eq_getElem?_getD, Option.getD_some]
  split <;> rfl

theorem mulInt32_dims (rows cols : Nat) (hsz : rows * cols < 2 ^ 31) :
    mulInt32 (cols : Int) (rows : Int) = ((rows * cols : Nat) : Int) := by
  unfold mulInt32
  have h : ((cols : Int) * (rows : Int)) = ((rows * cols : Nat) : Int) := by
    push_cast; ring
  rw [h, wrapInt32_eq _ (by omega) (by exact_mod_cast hsz)]

/-- The closed form of the loop result when the loop runs to `n`. -/
theorem map_slot_full (n : Nat) (P : Nat → Bool) (v : Nat → Vec3) :
    (List.range n).map (fun i => if i < n ∧ P i = true then v i else sentinel)
      = (List.range n).map (fun i => if P i = true then v i else sentinel) := by
  apply List.map_congr_left
  intro i hi
  have : i < n := List.mem_range.mp hi
  simp [this]

theorem createPointCloud_example_eq (m : Mat Fp) (fx fy cx cy mn mx : Fp)
    (hwf : m.WF) (hsz : m.rows * m.cols < 2 ^ 31) :
    createPointCloud_example m fx fy cx cy mn mx = some (cloudOf m fx fy cx cy mn mx) := by
  obtain ⟨hlen, _, hcols⟩ := hwf
  unfold createPointCloud_example
  have hmul := mulInt32_dims m.rows m.cols hsz
  dsimp only
  rw [hmul, Int.toNat_ofNat]
  have hnn : ¬ (((m.rows * m.cols : Nat) : Int) < 0) := by omega
  rw [if_neg hnn]
  rw [foldlM_range_set (m.rows * m.cols) _
    (fun idx => accepted (m.data.getD idx Fp.nan) mn mx)
    (fun idx => backProject ((idx / m.cols : Nat) : Int) ((idx % m.cols : Nat) : Int)
      (m.data.getD idx Fp.nan) fx fy cx cy) _ (m.rows * m.cols) le_rfl]
  · simp only [List.length_map, List.length_range, le_refl, if_true, map_slot_full]
    rw [List.take_of_length_le (by simp)]
    rfl
  · intro buf idx hidx hbuf
    have hc : m.cols ≠ 0 := by
      rintro h0
      rw [h0] at hidx
      simp at hidx
    exact loopBody_example_eq m.cols m.data fx fy cx cy mn mx buf idx hc
      (by omega) (by omega)

theorem createPointCloud_detectball_eq (m : Mat Fp) (fx fy cx cy mn mx : Fp)
    (hwf : m.WF) (hsz : m.rows * m.cols < 2 ^ 31) :
    createPointCloud_detectball m fx fy cx cy mn mx = some (cloudOf m fx fy cx cy mn mx) := by
  obtain ⟨hlen, _, hcols⟩ := hwf
  unfold createPointCloud_detectball
  have hsz2 : ((m.rows * m.cols : Nat) : Int) < 2 ^ 64 := by
    have : (m.rows * m.cols : Nat) < 2 ^ 64 := by
      norm_num at hsz ⊢; omega
    exact_mod_cast this
  have hmul := mulInt32_dims m.rows m.cols hsz
  have h64 := toSizeT_eq _ (Int.ofNat_nonneg (m.rows * m.cols)) hsz2
  rw [Int.toNat_ofNat] at h64
  dsimp only
  rw [hmul, h64]
  have hnn : ¬ (2 ^ 63 ≤ m.rows * m.cols) := by
    norm_num at hsz ⊢; omega
  rw [if_neg hnn]
  rw [foldlM_range_set (m.rows * m.cols) _
    (fun idx => accepted (m.data.getD idx Fp.nan) mn mx)
    (fun idx => backProject ((idx / m.cols : Nat) : Int) ((idx % m.cols : Nat) : Int)
      (m.data.getD idx Fp.nan) fx fy cx cy) _ (m.rows * m.cols) le_rfl]
  · simp only [List.length_map, List.length_range, le_refl, if_true, map_slot_full]
    rw [List.take_of_length_le (by simp)]
    rfl
  · intro buf idx hidx hbuf
    have hc : m.cols ≠ 0 := by
      rintro h0
      rw [h0] at hidx
      simp at hidx
    exact loopBody_detectball_eq m.cols m.data fx fy cx cy mn mx buf idx hc hcols
      (by omega) (by omega)

/-- Both programs build the cloud `cloudOf` from a well formed depth map of
fewer than `2 ^ 31` elements. -/
theorem createPointCloud_eq (p : Program) (m : Mat Fp) (fx fy cx cy mn mx : Fp)
    (hwf : m.WF) (hsz : m.rows * m.cols < 2 ^ 31) :
    createPointCloud p m fx fy cx cy mn mx = some (cloudOf m fx fy cx cy mn mx) := by
  cases p
  · exact createPointCloud_example_eq m fx fy cx cy mn mx hwf hsz
  · exact createPointCloud_detectball_eq m fx fy cx cy mn mx hwf hsz

/-- Slot `idx` of the closed form. -/
theorem cloudOf_getElem? (m : Mat Fp) (fx fy cx cy mn mx : Fp) (hwf : m.WF)
    (idx : Nat) (d : Fp) (hd : m.data[idx]? = some d) :
    (cloudOf m fx fy cx cy mn mx).data[idx]? = some (slotOf m.cols fx fy cx cy mn mx idx d) := by
  have hlt : idx < m.rows * m.cols := by
    rw [← hwf.1]
    exact (List.getElem?_eq_some_iff.mp hd).1
  simp [cloudOf, List.getElem?_range hlt, hd]

/-- The test of the loop in terms of the four conditions. -/
theorem accepted_iff (d mn mx : Fp) :
    accepted d mn mx = true ↔
      (d.isFinite = true ∧ Fp.ge d (Fp.fin 0) = true ∧ Fp.gt d mn = true ∧
        Fp.lt d mx = true) := by
  unfold accepted
  cases d <;> simp [Fp.isinf, Fp.isFinite, Fp.ge, Fp.lt, Fp.eq, Fp.ofInt, and_assoc]

theorem backProject_ne_sentinel (r c : Int) (d fx fy cx cy : Fp) (h : d.isFinite = true) :
    backProject r c d fx fy cx cy ≠ sentinel := by
  intro he
  have h2 : d = Fp.nan := congrArg Vec3.val2 he
  rw [h2] at h
  simp [Fp.isFinite] at h

theorem toRat?_eq_some (x : Fp) (a : ℚ) :
    x.toRat? = some a ↔ (x.isFinite = true ∧ x.toRat = a) := by
  cases x <;> simp [Fp.toRat?, Fp.isFinite, Fp.toRat, eq_comm]

theorem toRat?_mkFin (s : Bool) (q : ℚ) : (Fp.mkFin s q).toRat? = some q := by
  unfold Fp.mkFin Fp.mkZero
  split_ifs with h1 h2 <;> simp [Fp.toRat?, h1]

theorem toRat?_mul (x y : Fp) (a b : ℚ) (hx : x.toRat? = some a) (hy : y.toRat? = some b) :
    (Fp.mul x y).toRat? = some (a * b) := by
  rw [toRat?_eq_some] at hx hy
  obtain ⟨hx1, rfl⟩ := hx
  obtain ⟨hy1, rfl⟩ := hy
  cases x <;> cases y <;> simp [Fp.isFinite] at hx1 hy1 <;>
    simp [Fp.mul, Fp.isnan, Fp.isinf, toRat?_mkFin]

theorem toRat?_neg (x : Fp) (a : ℚ) (hx : x.toRat? = some a) :
    (Fp.neg x).toRat? = some (-a) := by
  rw [toRat?_eq_some] at hx
  obtain ⟨hx1, rfl⟩ := hx
  cases x <;> simp [Fp.isFinite] at hx1 <;> simp [Fp.neg, Fp.toRat?, Fp.toRat]
  split_ifs with h <;> simp [Fp.toRat?, h]

theorem toRat?_add (x y : Fp) (a b : ℚ) (hx : x.toRat? = some a) (hy : y.toRat? = some b) :
    (Fp.add x y).toRat? = some (a + b) := by
  rw [toRat?_eq_some] at hx hy
  obtain ⟨hx1, rfl⟩ := hx
  obtain ⟨hy1, rfl⟩ := hy
  cases x <;> cases y <;> simp [Fp.isFinite] at hx1 hy1 <;>
    simp [Fp.add, Fp.isnan, Fp.isinf, toRat?_mkFin]

theorem toRat?_sub (x y : Fp) (a b : ℚ) (hx : x.toRat? = some a) (hy : y.toRat? = some b) :
    (Fp.sub x y).toRat? = some (a - b) := by
  unfold Fp.sub
  rw [toRat?_add x (Fp.neg y) a (-b) hx (toRat?_neg y b hy), sub_eq_add_neg]

theorem toRat?_div (x y : Fp) (a b : ℚ) (hx : x.toRat? = some a) (hy : y.toRat? = some b)
    (hb : b ≠ 0) : (Fp.div x y).toRat? = some (a / b) := by
  rw [toRat?_eq_some] at hx hy
  obtain ⟨hx1, rfl⟩ := hx
  obtain ⟨hy1, rfl⟩ := hy
  cases x <;> cases y <;> simp [Fp.isFinite] at hx1 hy1 <;>
    simp [Fp.toRat] at hb <;>
    simp [Fp.div, Fp.isnan, Fp.isinf, Fp.isZero, toRat?_mkFin, hb]

theorem decode_pixel (W r c : Nat) (hc : c < W) :
    (r * W + c) / W = r ∧ (r * W + c) % W = c := by
  have hW : 0 < W := by omega
  constructor
  · rw [Nat.add_comm, Nat.add_mul_div_right _ _ hW, Nat.div_eq_of_lt hc, Nat.zero_add]
  · rw [Nat.add_comm, Nat.add_mul_mod_self_right, Nat.mod_eq_of_lt hc]

theorem toRat?_of_isFinite (x : Fp) (h : x.isFinite = true) : x.toRat? = some x.toRat := by
  rw [toRat?_eq_some]
  exact ⟨h, rfl⟩

theorem toRat_pos_of_gt_zero (d : Fp) (q : ℚ) (h : Fp.gt d (Fp.fin 0) = true)
    (hq : d.toRat? = some q) : 0 < q := by
  cases d <;> simp [Fp.toRat?] at hq <;> simp [Fp.gt, Fp.lt, Fp.toRat] at h
  subst hq
  exact h

theorem not_lt_of_eq (x y : Fp) (h : Fp.eq x y = true) :
    Fp.lt x y = false ∧ Fp.lt y x = false := by
  cases x <;> cases y <;> simp [Fp.eq, Fp.isinf, Fp.signBit, Fp.toRat] at h <;>
    simp [Fp.lt, Fp.toRat, h]

theorem not_lt_self (x : Fp) : Fp.lt x x = false := by
  cases x <;> simp [Fp.lt]

theorem pixel_index_lt (W H r c : Nat) (hr : r < H) (hc : c < W) : r * W + c < W * H := by
  have h1 : r * W + c < (r + 1) * W := by
    rw [Nat.add_mul, Nat.one_mul]
    omega
  have h2 : (r + 1) * W ≤ H * W := Nat.mul_le_mul_right W hr
  rw [Nat.mul_comm W H]
  omega

theorem toRat_mkZero (s : Bool) : (Fp.mkZero s).toRat = 0 := by
  cases s <;> simp [Fp.mkZero, Fp.toRat]

theorem toRat_mkFin (s : Bool) (q : ℚ) : (Fp.mkFin s q).toRat = q := by
  unfold Fp.mkFin
  split_ifs with h
  · rw [toRat_mkZero, h]
  · rfl

theorem isFinite_mkInf (s : Bool) : (Fp.mkInf s).isFinite = false := by
  cases s <;> rfl

/-- An accepted depth is positive when the lower bound of the range is not
negative. -/
theorem accepted_pos (d mn mx : Fp) (h : accepted d mn mx = true)
    (hmn : Fp.ge mn (Fp.fin 0) = true) : d.isFinite = true ∧ 0 < d.toRat := by
  rw [accepted_iff] at h
  obtain ⟨h1, _, h3, _⟩ := h
  refine ⟨h1, ?_⟩
  cases d with
  | nan => simp [Fp.isFinite] at h1
  | pinf => simp [Fp.isFinite] at h1
  | ninf => simp [Fp.isFinite] at h1
  | nzero =>
    cases mn <;> simp [Fp.ge, Fp.gt, Fp.lt, Fp.eq, Fp.toRat, Fp.isinf] at hmn h3
    rcases hmn with h | h <;> linarith
  | fin q =>
    cases mn <;> simp [Fp.ge, Fp.gt, Fp.lt, Fp.eq, Fp.toRat, Fp.isinf] at hmn h3 ⊢
    · exact h3
    · rcases hmn with h | h <;> linarith

/-- The three outcomes of a division: not finite, zero, or the quotient of
two finite values. -/
theorem div_cases (x y : Fp) :
    (Fp.div x y).isFinite = false ∨ (Fp.div x y).toRat = 0 ∨
      (x.isFinite = true ∧ y.isFinite = true ∧ y.isZero = false ∧
        (Fp.div x y).toRat = x.toRat / y.toRat) := by
  unfold Fp.div
  split_ifs with h1 h2 h3 h4 h5 h6
  · exact Or.inl rfl
  · exact Or.inl rfl
  · exact Or.inl (isFinite_mkInf _)
  · exact Or.inr (Or.inl (toRat_mkZero _))
  · exact Or.inl rfl
  · exact Or.inl (isFinite_mkInf _)
  · refine Or.inr (Or.inr ⟨?_, ?_, ?_, toRat_mkFin _ _⟩)
    · cases x <;> simp [Fp.isnan, Fp.isinf, Fp.isFinite] at h1 h2 ⊢
    · cases y <;> simp [Fp.isnan, Fp.isinf, Fp.isFinite] at h1 h4 ⊢
    · simpa using h5

/-- The depth of an invalid disparity is not positive when `fx * baseline` is
not negative. -/
theorem depth_of_invalid_nonpos (num d : Fp)
    (hinv : d.isZero = true ∨ Fp.lt d (Fp.fin 0) = true ∨ d.isFinite = false)
    (hnum : Fp.lt num (Fp.fin 0) = false) (hfin : (Fp.div num d).isFinite = true) :
    (Fp.div num d).toRat ≤ 0 := by
  rcases div_cases num d with h | h | ⟨hx, hy, hz, hq⟩
  · rw [h] at hfin
    exact absurd hfin Bool.false_ne_true
  · rw [h]
  · rw [hq]
    have hd : d.toRat < 0 := by
      rcases hinv with h | h | h
      · rw [h] at hz
        exact absurd hz (by decide)
      · cases d <;> simp [Fp.lt, Fp.toRat, Fp.isFinite] at h hy ⊢
        exact h
      · rw [h] at hy
        exact absurd hy Bool.false_ne_true
    have hn : 0 ≤ num.toRat := by
      cases num <;> simp [Fp.lt, Fp.toRat, Fp.isFinite] at hnum hx ⊢
      exact hnum
    exact div_nonpos_iff.mpr (Or.inl ⟨hn, le_of_lt hd⟩)

/-- An invalid disparity gives a rejected depth when `fx * baseline` is not
negative and the lower bound of the range is not negative. -/
theorem invalid_disparity_rejected (num d mn mx : Fp)
    (hinv : d.isZero = true ∨ Fp.lt d (Fp.fin 0) = true ∨ d.isFinite = false)
    (hnum : Fp.lt num (Fp.fin 0) = false) (hmn : Fp.ge mn (Fp.fin 0) = true) :
    accepted (Fp.div num d) mn mx = false := by
  rw [Bool.eq_false_iff]
  intro h
  obtain ⟨h1, h2⟩ := accepted_pos _ mn mx h hmn
  have := depth_of_invalid_nonpos num d hinv hnum h1
  linarith

theorem isFinite_mkZero (s : Bool) : (Fp.mkZero s).isFinite = true := by
  cases s <;> rfl

theorem isFinite_mkFin (s : Bool) (q : ℚ) : (Fp.mkFin s q).isFinite = true := by
  unfold Fp.mkFin
  split_ifs
  · exact isFinite_mkZero s
  · rfl

/-- A division by a zero or by a NaN is not finite. -/
theorem div_zero_or_nan (num d : Fp) (hz : d.isZero = true ∨ d.isnan = true) :
    (Fp.div num d).isFinite = false := by
  have hinf : d.isinf = false := by
    cases d <;> simp [Fp.isZero, Fp.isnan, Fp.isinf] at hz ⊢
  unfold Fp.div
  split_ifs with h1 h2 h3 h4 h5 h6
  · rfl
  · rfl
  · exact isFinite_mkInf _
  · rw [hinf] at h4
    exact absurd h4 Bool.false_ne_true
  · rfl
  · exact isFinite_mkInf _
  · rcases hz with h | h
    · exact absurd h h5
    · simp [h] at h1

/-- A finite value divided by a finite non zero value or by an infinity is
finite. -/
theorem div_finite (num d : Fp) (hnum : num.isFinite = true)
    (hd : (d.isFinite = true ∧ d.isZero = false) ∨ d.isinf = true) :
    (Fp.div num d).isFinite = true := by
  have hn1 : num.isnan = false := by cases num <;> simp [Fp.isFinite, Fp.isnan] at hnum ⊢
  have hn2 : num.isinf = false := by cases num <;> simp [Fp.isFinite, Fp.isinf] at hnum ⊢
  have hd1 : d.isnan = false := by
    cases d <;> simp [Fp.isFinite, Fp.isnan, Fp.isinf] at hd ⊢
  unfold Fp.div
  rw [hn1, hd1, hn2]
  simp only [Bool.or_self, Bool.false_eq_true, if_false]
  split_ifs with h4 h5 h6
  · exact isFinite_mkZero _
  · rcases hd with ⟨_, h⟩ | h
    · rw [h] at h5
      exact absurd h5 Bool.false_ne_true
    · exact absurd h h4
  · rcases hd with ⟨_, h⟩ | h
    · rw [h] at h5
      exact absurd h5 Bool.false_ne_true
    · exact absurd h h4
  · exact isFinite_mkFin _ _

theorem extractDepthMap_WF (fx baseline : Fp) (disp : Mat Fp) (h : disp.WF) :
    (extractDepthMap fx baseline disp).WF := by
  obtain ⟨h1, h2, h3⟩ := h
  exact ⟨by simp [extractDepthMap, cvDivide, h1], h2, h3⟩

theorem disparityToDepth_WF (minDisparity : Int) (fx baseline : Fp) (disp : Mat Fp)
    (h : disp.WF) : (disparityToDepth minDisparity fx baseline disp).WF := by
  obtain ⟨h1, h2, h3⟩ := h
  exact ⟨by simp [disparityToDepth, minDisparityOffset, cvAdd, extractDepthMap, cvDivide, h1],
    h2, h3⟩

/-- The body of the `if` of the capture loop yields the closed form of the
cloud of the depth map of the frame. -/
theorem processFrame_eq (p : Program) (cvResize : Fp → Mat Fp → Mat Fp) (s : Session)
    (frame : Frame) (hwf : frame.WF cvResize) :
    processFrame p cvResize s frame
      = some (cloudOf (disparityToDepth s.minDisparity s.fx s.baseline
          (stereoMatching cvResize true frame.left_disp_half))
          s.fx s.fy s.cx s.cy s.minDepth_mm s.maxDepth_mm) := by
  unfold processFrame
  exact createPointCloud_eq p _ _ _ _ _ _ _ (disparityToDepth_WF _ _ _ _ hwf.1) hwf.2

theorem grabStep_new (p : Program) (cvResize : Fp → Mat Fp → Mat Fp) (s : Session)
    (st : GrabState) (frame : Frame) (cloud : Mat Vec3)
    (hp : processFrame p cvResize s frame = some cloud)
    (hd : frame.data = true) (ht : frame.timestamp ≠ st.last_ts) :
    grabStep p cvResize s st frame
      = some { last_ts := frame.timestamp, cloudMat := cloud,
               processed := st.processed ++ [frame.timestamp] } := by
  unfold grabStep
  simp [hd, ht, hp]

theorem grabStep_old (p : Program) (cvResize : Fp → Mat Fp → Mat Fp) (s : Session)
    (st : GrabState) (frame : Frame)
    (h : ¬ (frame.data = true ∧ frame.timestamp ≠ st.last_ts)) :
    grabStep p cvResize s st frame = some st := by
  unfold grabStep
  by_cases hd : frame.data = true
  · have ht : frame.timestamp = st.last_ts := by
      by_contra hne
      exact h ⟨hd, hne⟩
    simp [hd, ht]
  · simp [hd]

/-- The skip test without the wrap, when the four sums fit in an `int`. -/
theorem circleSkipped_eq_false_iff (cols rows x y radius : Int)
    (hx1 : -(2 ^ 31) ≤ x - radius) (hx2 : x + radius < 2 ^ 31)
    (hy1 : -(2 ^ 31) ≤ y - radius) (hy2 : y + radius < 2 ^ 31) (hr : 0 ≤ radius) :
    circleSkipped cols rows x y radius = false ↔
      (0 ≤ x - radius ∧ 0 ≤ y - radius ∧ x + radius < cols ∧ y + radius < rows) := by
  unfold circleSkipped
  rw [wrapInt32_eq (x - radius) hx1 (by omega), wrapInt32_eq (y - radius) hy1 (by omega),
    wrapInt32_eq (x + radius) (by omega) hx2, wrapInt32_eq (y + radius) (by omega) hy2]
  simp only [Bool.or_eq_false_iff, decide_eq_false_iff_not, not_lt, ge_iff_le, not_le,
    and_assoc]

/-- A circle that passes the test is read inside the depth map. -/
theorem processCircle_of_not_skipped (m : Mat Fp) (hwf : m.WF) (x y radius : Int)
    (hx1 : -(2 ^ 31) ≤ x - radius) (hx2 : x + radius < 2 ^ 31)
    (hy1 : -(2 ^ 31) ≤ y - radius) (hy2 : y + radius < 2 ^ 31) (hr : 0 ≤ radius)
    (hns : circleSkipped m.cols m.rows x y radius = false) :
    (0 ≤ x ∧ x < m.cols ∧ 0 ≤ y ∧ y < m.rows) ∧
      (y * m.cols + x).toNat < m.data.length ∧
      ∃ d, m.data[(y * m.cols + x).toNat]? = some d ∧
        processCircle m x y radius = some (CircleResult.processed d) := by
  have h := (circleSkipped_eq_false_iff m.cols m.rows x y radius hx1 hx2 hy1 hy2 hr).mp hns
  obtain ⟨h1, h2, h3, h4⟩ := h
  have hb : 0 ≤ x ∧ x < m.cols ∧ 0 ≤ y ∧ y < m.rows := ⟨by omega, by omega, by omega, by omega⟩
  obtain ⟨xn, rfl⟩ := Int.eq_ofNat_of_zero_le hb.1
  obtain ⟨yn, rfl⟩ := Int.eq_ofNat_of_zero_le hb.2.2.1
  have hidx : ((yn : Int) * (m.cols : Int) + (xn : Int)).toNat = yn * m.cols + xn := by
    have : ((yn : Int) * (m.cols : Int) + (xn : Int)) = ((yn * m.cols + xn : Nat) : Int) := by
      push_cast
      ring
    rw [this, Int.toNat_ofNat]
  have hlt : yn * m.cols + xn < m.data.length := by
    rw [hwf.1, Nat.mul_comm m.rows m.cols]
    exact pixel_index_lt m.cols m.rows yn xn (by omega) (by omega)
  refine ⟨hb, by rw [hidx]; exact hlt, m.data[yn * m.cols + xn], ?_, ?_⟩
  · rw [hidx]
    exact List.getElem?_eq_getElem hlt
  · unfold processCircle
    rw [hns, hidx, List.getElem?_eq_getElem hlt]
    simp only [Bool.false_eq_true, if_false]
    exact if_pos ⟨hb.2.2.1, hb.2.2.2, hb.1, hb.2.1⟩

theorem mul_fin_pos (a b : ℚ) (hb : 0 < b) : Fp.mul (Fp.fin a) (Fp.fin b) = Fp.fin (a * b) := by
  have hb2 : ¬ b < 0 := not_lt.mpr (le_of_lt hb)
  by_cases ha : a = 0
  · subst ha
    simp [Fp.mul, Fp.isnan, Fp.isinf, Fp.toRat, Fp.signBit, Fp.mkFin, Fp.mkZero, hb2]
  · have hab : a * b ≠ 0 := mul_ne_zero ha (ne_of_gt hb)
    simp [Fp.mul, Fp.isnan, Fp.isinf, Fp.toRat, Fp.mkFin, hab]

theorem one_div_sixteen : Fp.div (Fp.fin 1) (Fp.fin 16) = Fp.fin (1 / 16) := by
  simp [Fp.div, Fp.isnan, Fp.isinf, Fp.isZero, Fp.toRat, Fp.mkFin]

theorem normalizeDisparity_getElem? (left_disp_half : Mat Int) (idx : Nat) (s : Int)
    (hs : left_disp_half.data[idx]? = some s) :
    (normalizeDisparity true left_disp_half).data[idx]? = some (Fp.fin ((s : ℚ) / 8)) ∧
      (normalizeDisparity false left_disp_half).data[idx]? = some (Fp.fin ((s : ℚ) / 16)) := by
  have h16 : Fp.mul (Fp.ofInt s) (Fp.fin (1 / 16)) = Fp.fin ((s : ℚ) / 16) := by
    rw [Fp.ofInt, mul_fin_pos _ _ (by norm_num)]
    congr 1
    ring
  have h8 : Fp.mul (Fp.fin ((s : ℚ) / 16)) (Fp.fin 2) = Fp.fin ((s : ℚ) / 8) := by
    rw [mul_fin_pos _ _ (by norm_num)]
    congr 1
    ring
  constructor
  · simp only [normalizeDisparity, cvMultiply, convertTo, if_true, List.getElem?_map, hs,
      Option.map_some', one_div_sixteen, h16, h8]
  · simp only [normalizeDisparity, cvMultiply, convertTo, Bool.false_eq_true, if_false,
      List.getElem?_map, hs, Option.map_some', one_div_sixteen, h16]

theorem wrapInt32_range (x : Int) : -(2 ^ 31) ≤ wrapInt32 x ∧ wrapInt32 x < 2 ^ 31 := by
  unfold wrapInt32
  norm_num
  omega

/-- One iteration of the two loops gives the same buffer. -/
theorem loopBody_same (cols : Nat) (hc : cols < 2 ^ 31) (depth_vec : List Fp)
    (fx fy cx cy mn mx : Fp) (buf : List Vec3) (idx : Nat) :
    loopBody_example (cols : Int) depth_vec fx fy cx cy mn mx buf (idx : Int)
      = loopBody_detectball (cols : Int) depth_vec fx fy cx cy mn mx buf idx := by
  have h64 : toSizeT (cols : Int) = cols := by
    rw [toSizeT_eq _ (by omega) (by norm_num at hc ⊢; omega)]
    simp
  unfold loopBody_example loopBody_detectball
  rw [h64]
  by_cases h0 : cols = 0
  · subst h0
    simp
  · have h0i : (cols : Int) ≠ 0 := by exact_mod_cast h0
    simp only [h0, h0i, if_false, Int.toNat_ofNat, ← Int.ofNat_tdiv, ← Int.ofNat_tmod]

/-- A negative `int` converted to `size_t` is at least `2 ^ 63`. -/
theorem toSizeT_of_neg (r : Int) (h1 : -(2 ^ 31) ≤ r) (h2 : r < 0) : 2 ^ 63 ≤ toSizeT r := by
  unfold toSizeT
  have h3 : r % 2 ^ 64 = r + 2 ^ 64 := by
    norm_num at h1 ⊢
    omega
  rw [h3]
  have h4 : (0 : Int) ≤ r + 2 ^ 64 := by
    norm_num at h1 ⊢
    omega
  have h5 : ((2 ^ 63 : Nat) : Int) ≤ r + 2 ^ 64 := by
    norm_num at h1 ⊢
    omega
  exact (Int.le_toNat h4).mpr h5

/-- The two programs build the same cloud from every depth map whose number
of columns is a value of an `int`. -/
theorem createPointCloud_same (m : Mat Fp) (fx fy cx cy mn mx : Fp) (hc : m.cols < 2 ^ 31) :
    createPointCloud_example m fx fy cx cy mn mx
      = createPointCloud_detectball m fx fy cx cy mn mx := by
  unfold createPointCloud_example createPointCloud_detectball
  dsimp only
  have hf : (fun (buffer : List Vec3) (idx : Nat) =>
        loopBody_example (m.cols : Int) m.data fx fy cx cy mn mx buffer (idx : Int))
      = (fun (buffer : List Vec3) (idx : Nat) =>
        loopBody_detectball (m.cols : Int) m.data fx fy cx cy mn mx buffer idx) := by
    funext buffer idx
    exact loopBody_same m.cols hc m.data fx fy cx cy mn mx buffer idx
  rw [hf]
  have hrange : -(2 ^ 31) ≤ mulInt32 (m.cols : Int) (m.rows : Int) ∧
      mulInt32 (m.cols : Int) (m.rows : Int) < 2 ^ 31 :=
    wrapInt32_range ((m.cols : Int) * (m.rows : Int))
  by_cases hr : mulInt32 (m.cols : Int) (m.rows : Int) < 0
  · rw [if_pos hr, if_pos (toSizeT_of_neg _ hrange.1 hr)]
  · have hr0 : 0 ≤ mulInt32 (m.cols : Int) (m.rows : Int) := not_lt.mp hr
    have h64 : toSizeT (mulInt32 (m.cols : Int) (m.rows : Int))
        = (mulInt32 (m.cols : Int) (m.rows : Int)).toNat :=
      toSizeT_eq _ hr0 (lt_trans hrange.2 (by norm_num))
    have hlt : (mulInt32 (m.cols : Int) (m.rows : Int)).toNat < 2 ^ 31 :=
      (Int.toNat_lt hr0).mpr (by exact_mod_cast hrange.2)
    have hsmall : ¬ (2 ^ 63 ≤ (mulInt32 (m.cols : Int) (m.rows : Int)).toNat) :=
      not_le.mpr (lt_trans hlt (by norm_num))
    rw [if_neg hr, h64, if_neg hsmall]

/-- An empty or inverted range accepts no depth. -/
theorem empty_range_rejects (d mn mx : Fp) (h : Fp.ge mn mx = true) :
    accepted d mn mx = false := by
  rw [Bool.eq_false_iff, Ne, accepted_iff]
  rintro ⟨_, _, h3, h4⟩
  cases mn <;> cases mx <;>
    simp [Fp.ge, Fp.lt, Fp.eq, Fp.isinf, Fp.signBit, Fp.toRat] at h <;>
    cases d <;> simp [Fp.gt, Fp.lt, Fp.toRat] at h3 h4 <;>
    first
      | linarith
      | (rcases h with h | h <;> linarith)

/-- With a lower bound that is not negative the test `depth >= 0` follows
from `depth > minDepth_mm`. -/
theorem accepted_iff_of_min_nonneg (d mn mx : Fp) (h : Fp.ge mn (Fp.fin 0) = true) :
    accepted d mn mx = true ↔
      (d.isinf = false ∧ Fp.lt mn d = true ∧ Fp.lt d mx = true) := by
  rw [accepted_iff]
  constructor
  · rintro ⟨h1, _, h3, h4⟩
    refine ⟨?_, h3, h4⟩
    cases d <;> simp [Fp.isFinite, Fp.isinf] at h1 ⊢
  · rintro ⟨h1, h3, h4⟩
    refine ⟨?_, ?_, h3, h4⟩
    · cases d <;> simp [Fp.isinf, Fp.isFinite] at h1 ⊢
      cases mn <;> simp [Fp.lt] at h3
    · cases mn <;> simp [Fp.ge, Fp.lt, Fp.eq, Fp.isinf, Fp.signBit, Fp.toRat] at h <;>
        cases d <;> simp [Fp.isinf, Fp.lt, Fp.toRat] at h1 h3 <;>
        simp [Fp.ge, Fp.lt, Fp.eq, Fp.toRat] <;>
        first
          | (left; linarith)
          | (rcases h with h | h <;> left <;> linarith)

/-- One delivery of a well formed frame, in the two cases of the test. -/
theorem grabStep_cases (p : Program) (cvResize : Fp → Mat Fp → Mat Fp) (s : Session)
    (st : GrabState) (frame : Frame) (hwf : frame.WF cvResize) :
    ∃ st', grabStep p cvResize s st frame = some st' ∧
      ((frame.data = true ∧ frame.timestamp ≠ st.last_ts) →
        st'.processed = st.processed ++ [frame.timestamp] ∧ st'.last_ts = frame.timestamp) ∧
      (¬ (frame.data = true ∧ frame.timestamp ≠ st.last_ts) → st' = st) := by
  by_cases h : frame.data = true ∧ frame.timestamp ≠ st.last_ts
  · refine ⟨_, grabStep_new p cvResize s st frame _ (processFrame_eq p cvResize s frame hwf)
      h.1 h.2, fun _ => ⟨rfl, rfl⟩, fun hn => absurd h hn⟩
  · exact ⟨st, grabStep_old p cvResize s st frame h, fun hp => absurd hp h, fun _ => rfl⟩

/-- The invariant of the capture loop: the first processed timestamp is not
0 and `last_ts` is the last processed timestamp (0 when there is none). -/
theorem grabLoop_inv (p : Program) (cvResize : Fp → Mat Fp → Mat Fp) (s : Session)
    (frames : List Frame) :
    ∀ st : GrabState, (∀ f ∈ frames, f.WF cvResize) →
      st.processed.head? ≠ some 0 → st.last_ts = st.processed.getLast?.getD 0 →
      ∃ st', grabLoop p cvResize s st frames = some st' ∧
        st'.processed.head? ≠ some 0 ∧ st'.last_ts = st'.processed.getLast?.getD 0 := by
  induction frames with
  | nil =>
    intro st _ h1 h2
    exact ⟨st, rfl, h1, h2⟩
  | cons f fs ih =>
    intro st hwf h1 h2
    obtain ⟨st1, hs1, hnew, hold⟩ :=
      grabStep_cases p cvResize s st f (hwf f (List.mem_cons_self f fs))
    have hinv : st1.processed.head? ≠ some 0 ∧
        st1.last_ts = st1.processed.getLast?.getD 0 := by
      by_cases h : f.data = true ∧ f.timestamp ≠ st.last_ts
      · obtain ⟨hp, hl⟩ := hnew h
        rw [hp, hl]
        refine ⟨?_, by simp⟩
        cases hproc : st.processed with
        | nil =>
          rw [hproc] at h2
          simp only [List.getLast?_nil, Option.getD_none] at h2
          simp only [List.nil_append, List.head?_cons, ne_eq, Option.some.injEq]
          rw [h2] at h
          exact h.2
        | cons a as =>
          rw [hproc] at h1
          simpa using h1
      · rw [hold h]
        exact ⟨h1, h2⟩
    obtain ⟨st2, hs2, hinv2⟩ :=
      ih st1 (fun g hg => hwf g (List.mem_cons_of_mem f hg)) hinv.1 hinv.2
    refine ⟨st2, ?_, hinv2⟩
    unfold grabLoop at hs2 ⊢
    rw [List.foldlM_cons, hs1]
    exact hs2

theorem log2_eq (a : ℚ) (e : Int) (h1 : (2 : ℚ) ^ e ≤ a) (h2 : a < (2 : ℚ) ^ (e + 1)) :
    Int.log 2 a = e := by
  have ha : 0 < a := lt_of_lt_of_le (by positivity) h1
  have h3 : e ≤ Int.log 2 a := (Int.zpow_le_iff_le_log (by norm_num) ha).mp (by exact_mod_cast h1)
  have h4 : Int.log 2 a < e + 1 :=
    (Int.lt_zpow_iff_log_lt (by norm_num) ha).mp (by exact_mod_cast h2)
  omega

/-- A value that is an integer multiple of its unit in the last place is not
changed by the rounding. -/
theorem roundRat_exact (p : Nat) (emax : Int) (q : ℚ) (e : Int) (n : Int)
    (h1 : (2 : ℚ) ^ e ≤ |q|) (h2 : |q| < (2 : ℚ) ^ (e + 1)) (h3 : 1 - emax ≤ e)
    (h4 : e ≤ emax) (h5 : |q| = (n : ℚ) * 2 ^ (e - ((p : Int) - 1))) :
    roundRat p emax q = Fp.fin q := by
  have hlog := log2_eq |q| e h1 h2
  have ha : 0 < |q| := lt_of_lt_of_le (by positivity) h1
  have hq : q ≠ 0 := abs_pos.mp ha
  have hu : (2 : ℚ) ^ (e - ((p : Int) - 1)) ≠ 0 := by positivity
  unfold roundRat
  simp only [hlog, max_eq_left h3]
  have hx : |q| / 2 ^ (e - ((p : Int) - 1)) = (n : ℚ) := by
    rw [h5, mul_div_assoc, div_self hu, mul_one]
  have hr : roundHalfEven (n : ℚ) = n := by
    unfold roundHalfEven
    simp
  rw [hx, hr, ← h5]
  have hov : ¬ ((2 : ℚ) ^ (emax + 1) ≤ |q|) := by
    rw [not_le]
    exact lt_of_lt_of_le h2 (zpow_le_zpow_right₀ (by norm_num) (by omega))
  rw [if_neg hov]
  have hs : (if q < 0 then -|q| else |q|) = q := by
    split_ifs with h
    · rw [abs_of_neg h, neg_neg]
    · rw [abs_of_nonneg (not_lt.mp h)]
  rw [hs]
  simp [Fp.mkFin, hq]

theorem roundTo_fin (p : Nat) (emax : Int) (q : ℚ) (hq : q ≠ 0) :
    Fp.roundTo p emax (Fp.fin q) = roundRat p emax q := by
  simp [Fp.roundTo, hq]

/-- An integer of at most `p` bits is not changed by the rounding to a format
of `p` bits (here with the exponent `e` of the integer given). -/
theorem roundTo_int (p : Nat) (emax : Int) (m : Int) (e : Nat)
    (h1 : (2 : ℚ) ^ e ≤ |(m : ℚ)|) (h2 : |(m : ℚ)| < (2 : ℚ) ^ (e + 1)) (h3 : e + 1 ≤ p)
    (h4 : (e : Int) ≤ emax) (h5 : 1 ≤ emax) :
    Fp.roundTo p emax (Fp.fin (m : ℚ)) = Fp.fin (m : ℚ) := by
  have ha : 0 < |(m : ℚ)| := lt_of_lt_of_le (by positivity) h1
  have hq : (m : ℚ) ≠ 0 := abs_pos.mp ha
  rw [roundTo_fin p emax _ hq]
  refine roundRat_exact p emax (m : ℚ) (e : Int) (|m| * 2 ^ (p - 1 - e)) ?_ ?_ (by omega) h4 ?_
  · exact_mod_cast h1
  · exact_mod_cast h2
  · have hk : ((e : Int) - ((p : Int) - 1)) = -((p - 1 - e : Nat) : Int) := by omega
    rw [hk, zpow_neg, zpow_natCast]
    push_cast
    field_simp

theorem toFloat_16777217 : Fp.toFloat (Fp.fin 16777217) = Fp.fin 16777216 := by
  unfold Fp.toFloat
  rw [roundTo_fin 24 127 _ (by norm_num)]
  unfold roundRat
  have hlog : Int.log 2 |(16777217 : ℚ)| = 24 := log2_eq _ 24 (by norm_num) (by norm_num)
  have hf : ⌊(16777217 : ℚ) / 2⌋ = 8388608 := by
    rw [Int.floor_eq_iff]
    constructor <;> norm_num
  have hr : roundHalfEven ((16777217 : ℚ) / 2) = 8388608 := by
    unfold roundHalfEven
    simp only [hf]
    norm_num
  simp only [hlog]
  norm_num [hr, Fp.mkFin]

theorem roundTo_of_not_finite (p : Nat) (emax : Int) (x : Fp) (h : x.isFinite = false) :
    Fp.roundTo p emax x = x := by
  cases x <;> simp [Fp.isFinite] at h <;> rfl

theorem loopBody_example_ieee_eq (cols : Nat) (depth_vec : List Fp)
    (fx fy cx cy mn mx : Fp) (buf : List Vec3) (idx : Nat)
    (hc : cols ≠ 0) (hd : idx < depth_vec.length) (hb : idx < buf.length) :
    loopBody_example_ieee (cols : Int) depth_vec fx fy cx cy mn mx buf (idx : Int)
      = some (if accepted (depth_vec.getD idx Fp.nan) mn mx = true then
          buf.set idx (backProject_ieee Program.zed_oc_depth_example
            ((idx / cols : Nat) : Int) ((idx % cols : Nat) : Int)
            (depth_vec.getD idx Fp.nan) fx fy cx cy)
        else buf) := by
  unfold loopBody_example_ieee
  have hc2 : (cols : Int) ≠ 0 := by exact_mod_cast hc
  simp only [hc2, if_false, Int.toNat_ofNat, List.getElem?_eq_getElem hd, hb, if_true,
    List.getD_eq_getElem?_getD, Option.getD_some, ← Int.ofNat_tdiv, ← Int.ofNat_tmod]
  split <;> rfl

theorem loopBody_detectball_ieee_eq (cols : Nat) (depth_vec : List Fp)
    (fx fy cx cy mn mx : Fp) (buf : List Vec3) (idx : Nat)
    (hc : cols ≠ 0) (hc2 : cols < 2 ^ 31) (hd : idx < depth_vec.length) (hb : idx < buf.length) :
    loopBody_detectball_ieee (cols : Int) depth_vec fx fy cx cy mn mx buf idx
      = some (if accepted (depth_vec.getD idx Fp.nan) mn mx = true then
          buf.set idx (backProject_ieee Program.detectball_test
            ((idx / cols : Nat) : Int) ((idx % cols : Nat) : Int)
            (depth_vec.getD idx Fp.nan) fx fy cx cy)
        else buf) := by
  unfold loopBody_detectball_ieee
  have h64 : toSizeT (cols : Int) = cols := by
    rw [toSizeT_eq _ (by omega) (by norm_num at hc2 ⊢; omega)]
    simp
  simp only [h64, hc, if_false, List.getElem?_eq_getElem hd, hb, if_true,
    List.getD_eq_getElem?_getD, Option.getD_some]
  split <;> rfl

theorem pointCloudLoop_example_eq (m : Mat Fp) (fx fy cx cy mn mx : Fp)
    (hwf : m.WF) (hsz : m.rows * m.cols < 2 ^ 31) :
    pointCloudLoop_example m fx fy cx cy mn mx
      = some (bufferOf_ieee Program.zed_oc_depth_example m fx fy cx cy mn mx) := by
  obtain ⟨hlen, _, hcols⟩ := hwf
  unfold pointCloudLoop_example
  have hmul := mulInt32_dims m.rows m.cols hsz
  dsimp only
  rw [hmul, Int.toNat_ofNat]
  have hnn : ¬ (((m.rows * m.cols : Nat) : Int) < 0) := by omega
  rw [if_neg hnn]
  rw [foldlM_range_set (m.rows * m.cols) _
    (fun idx => accepted (m.data.getD idx Fp.nan) mn mx)
    (fun idx => backProject_ieee Program.zed_oc_depth_example
      ((idx / m.cols : Nat) : Int) ((idx % m.cols : Nat) : Int)
      (m.data.getD idx Fp.nan) fx fy cx cy) _ (m.rows * m.cols) le_rfl]
  · rw [map_slot_full]
    rfl
  · intro buf idx hidx hbuf
    have hc : m.cols ≠ 0 := by
      rintro h0
      rw [h0] at hidx
      simp at hidx
    exact loopBody_example_ieee_eq m.cols m.data fx fy cx cy mn mx buf idx hc
      (by omega) (by omega)

theorem pointCloudLoop_detectball_eq (m : Mat Fp) (fx fy cx cy mn mx : Fp)
    (hwf : m.WF) (hsz : m.rows * m.cols < 2 ^ 31) :
    pointCloudLoop_detectball m fx fy cx cy mn mx
      = some (bufferOf_ieee Program.detectball_test m fx fy cx cy mn mx) := by
  obtain ⟨hlen, _, hcols⟩ := hwf
  unfold pointCloudLoop_detectball
  have hsz2 : ((m.rows * m.cols : Nat) : Int) < 2 ^ 64 := by
    have : (m.rows * m.cols : Nat) < 2 ^ 64 := by
      norm_num at hsz ⊢; omega
    exact_mod_cast this
  have hmul := mulInt32_dims m.rows m.cols hsz
  have h64 := toSizeT_eq _ (Int.ofNat_nonneg (m.rows * m.cols)) hsz2
  rw [Int.toNat_ofNat] at h64
  dsimp only
  rw [hmul, h64]
  have hnn : ¬ (2 ^ 63 ≤ m.rows * m.cols) := by
    norm_num at hsz ⊢; omega
  rw [if_neg hnn]
  rw [foldlM_range_set (m.rows * m.cols) _
    (fun idx => accepted (m.data.getD idx Fp.nan) mn mx)
    (fun idx => backProject_ieee Program.detectball_test
      ((idx / m.cols : Nat) : Int) ((idx % m.cols : Nat) : Int)
      (m.data.getD idx Fp.nan) fx fy cx cy) _ (m.rows * m.cols) le_rfl]
  · rw [map_slot_full]
    rfl
  · intro buf idx hidx hbuf
    have hc : m.cols ≠ 0 := by
      rintro h0
      rw [h0] at hidx
      simp at hidx
    exact loopBody_detectball_ieee_eq m.cols m.data fx fy cx cy mn mx buf idx hc hcols
      (by omega) (by omega)

/-- The loop of both programs returns the closed form of the buffer, on
every well formed depth map of fewer than `2 ^ 31` elements. -/
theorem pointCloudLoop_eq (p : Program) (m : Mat Fp) (fx fy cx cy mn mx : Fp)
    (hwf : m.WF) (hsz : m.rows * m.cols < 2 ^ 31) :
    pointCloudLoop p m fx fy cx cy mn mx = some (bufferOf_ieee p m fx fy cx cy mn mx) := by
  cases p
  · exact pointCloudLoop_example_eq m fx fy cx cy mn mx hwf hsz
  · exact pointCloudLoop_detectball_eq m fx fy cx cy mn mx hwf hsz

theorem bufferOf_ieee_length (p : Program) (m : Mat Fp) (fx fy cx cy mn mx : Fp) :
    (bufferOf_ieee p m fx fy cx cy mn mx).length = m.rows * m.cols := by
  simp [bufferOf_ieee]

theorem bufferOf_ieee_getElem? (p : Program) (m : Mat Fp) (fx fy cx cy mn mx : Fp)
    (hwf : m.WF) (idx : Nat) (d : Fp) (hd : m.data[idx]? = some d) :
    (bufferOf_ieee p m fx fy cx cy mn mx)[idx]?
      = some (slotOf_ieee p m.cols fx fy cx cy mn mx idx d) := by
  have hlt : idx < m.rows * m.cols := by
    rw [← hwf.1]
    exact (List.getElem?_eq_some_iff.mp hd).1
  simp [bufferOf_ieee, List.getElem?_range hlt, hd]

/-- The block of both programs returns the matrix of the closed form of the
buffer, on every well formed depth map of at least one and fewer than
`2 ^ 31` elements. -/
theorem createPointCloud_ieee_eq (p : Program) (m : Mat Fp) (fx fy cx cy mn mx : Fp)
    (hwf : m.WF) (hsz : m.rows * m.cols < 2 ^ 31) (hne : 0 < m.rows * m.cols) :
    createPointCloud_ieee p m fx fy cx cy mn mx
      = some ⟨m.rows, m.cols, bufferOf_ieee p m fx fy cx cy mn mx⟩ := by
  unfold createPointCloud_ieee
  rw [pointCloudLoop_eq p m fx fy cx cy mn mx hwf hsz]
  have hlen := bufferOf_ieee_length p m fx fy cx cy mn mx
  simp only [cloneBuffer, hlen, le_refl, if_true]
  rw [if_neg (by omega), List.take_of_length_le (by omega)]

/-- A non zero integer of fewer than `2 ^ p` in absolute value is not changed
by the rounding to a format of `p` bits. -/
theorem roundTo_small_int (p : Nat) (emax : Int) (m : Int) (hm : m ≠ 0)
    (hlt : m.natAbs < 2 ^ p) (hp : (p : Int) ≤ emax + 1) (h5 : 1 ≤ emax) :
    Fp.roundTo p emax (Fp.fin (m : ℚ)) = Fp.fin (m : ℚ) := by
  have hn : m.natAbs ≠ 0 := Int.natAbs_ne_zero.mpr hm
  have habs : |(m : ℚ)| = ((m.natAbs : Nat) : ℚ) := by
    rw [Nat.cast_natAbs, Int.cast_abs]
  have hlog : Nat.log 2 m.natAbs < p := Nat.log_lt_of_lt_pow hn hlt
  refine roundTo_int p emax m (Nat.log 2 m.natAbs) ?_ ?_ (by omega) (by omega) h5
  · rw [habs]
    exact_mod_cast Nat.pow_log_le_self 2 hn
  · rw [habs]
    exact_mod_cast Nat.lt_pow_succ_log_self (by norm_num) m.natAbs

theorem toFloat_int (m : Int) (hm : m ≠ 0) (hlt : m.natAbs < 2 ^ 24) :
    Fp.toFloat (Fp.fin (m : ℚ)) = Fp.fin (m : ℚ) :=
  roundTo_small_int 24 127 m hm hlt (by norm_num) (by norm_num)

theorem toDouble_int (m : Int) (hm : m ≠ 0) (hlt : m.natAbs < 2 ^ 53) :
    Fp.toDouble (Fp.fin (m : ℚ)) = Fp.fin (m : ℚ) :=
  roundTo_small_int 53 1023 m hm hlt (by norm_num) (by norm_num)

theorem toFloat_16777216 : Fp.toFloat (Fp.fin 16777216) = Fp.fin 16777216 := by
  unfold Fp.toFloat
  rw [roundTo_fin 24 127 _ (by norm_num)]
  exact roundRat_exact 24 127 16777216 24 (2 ^ 23) (by norm_num) (by norm_num) (by norm_num)
    (by norm_num) (by norm_num)

/-- The quotient of two finite values with a positive divisor. -/
theorem div_fin_pos (a b : ℚ) (hb : 0 < b) : Fp.div (Fp.fin a) (Fp.fin b) = Fp.fin (a / b) := by
  have hb2 : ¬ b < 0 := not_lt.mpr (le_of_lt hb)
  have hb3 : b ≠ 0 := ne_of_gt hb
  by_cases ha : a = 0
  · subst ha
    simp [Fp.div, Fp.isnan, Fp.isinf, Fp.isZero, Fp.toRat, Fp.signBit, Fp.mkFin, Fp.mkZero, hb2,
      hb3]
  · have hab : a / b ≠ 0 := div_ne_zero ha hb3
    simp [Fp.div, Fp.isnan, Fp.isinf, Fp.isZero, Fp.toRat, Fp.mkFin, hab, hb3]

/-- The difference of an integer and a positive zero. -/
theorem sub_zero_fin (a : ℚ) : Fp.sub (Fp.fin a) (Fp.fin 0) = Fp.fin a := by
  by_cases ha : a = 0
  · subst ha
    simp [Fp.sub, Fp.neg, Fp.add, Fp.isnan, Fp.isinf, Fp.toRat, Fp.signBit, Fp.mkFin, Fp.mkZero]
  · simp [Fp.sub, Fp.neg, Fp.add, Fp.isnan, Fp.isinf, Fp.toRat, Fp.mkFin, ha]

/-- The example of the back projection, with the roundings. -/
theorem backProject_ieee_example (p : Program) :
    backProject_ieee p 10 20 (Fp.fin 1000) (Fp.fin 500) (Fp.fin 500) (Fp.fin 0) (Fp.fin 0)
      = ⟨Fp.fin 40, Fp.fin 20, Fp.fin 1000⟩ := by
  have d20 : Fp.toDouble (Fp.fin 20) = Fp.fin 20 := by
    simpa using toDouble_int 20 (by norm_num) (by decide)
  have d10 : Fp.toDouble (Fp.fin 10) = Fp.fin 10 := by
    simpa using toDouble_int 10 (by norm_num) (by decide)
  have d40 : Fp.toDouble (Fp.fin 40) = Fp.fin 40 := by
    simpa using toDouble_int 40 (by norm_num) (by decide)
  have d20000 : Fp.toDouble (Fp.fin 20000) = Fp.fin 20000 := by
    simpa using toDouble_int 20000 (by norm_num) (by decide)
  have d10000 : Fp.toDouble (Fp.fin 10000) = Fp.fin 10000 := by
    simpa using toDouble_int 10000 (by norm_num) (by decide)
  have f40 : Fp.toFloat (Fp.fin 40) = Fp.fin 40 := by
    simpa using toFloat_int 40 (by norm_num) (by decide)
  have f20 : Fp.toFloat (Fp.fin 20) = Fp.fin 20 := by
    simpa using toFloat_int 20 (by norm_num) (by decide)
  have hX : Fp.toDouble (Fp.div (Fp.toDouble (Fp.mul (Fp.toDouble
      (Fp.sub (Fp.ofInt 20) (Fp.fin 0))) (Fp.fin 1000))) (Fp.fin 500)) = Fp.fin 40 := by
    have h1 : Fp.ofInt 20 = Fp.fin 20 := by simp [Fp.ofInt]
    rw [h1, sub_zero_fin, d20, mul_fin_pos _ _ (by norm_num)]
    norm_num
    rw [d20000, div_fin_pos _ _ (by norm_num)]
    norm_num
    exact d40
  have hY : Fp.toDouble (Fp.div (Fp.toDouble (Fp.mul (Fp.toDouble
      (Fp.sub (Fp.ofInt 10) (Fp.fin 0))) (Fp.fin 1000))) (Fp.fin 500)) = Fp.fin 20 := by
    have h1 : Fp.ofInt 10 = Fp.fin 10 := by simp [Fp.ofInt]
    rw [h1, sub_zero_fin, d10, mul_fin_pos _ _ (by norm_num)]
    norm_num
    rw [d10000, div_fin_pos _ _ (by norm_num)]
    norm_num
    exact d20
  cases p
  · simp only [backProject_ieee, hX, hY, f40, f20]
  · simp only [backProject_ieee, hX, hY]

theorem extractDepthMap_ieee_getElem? (p : Program) (fx baseline : Fp) (disp : Mat Fp)
    (idx : Nat) (d : Fp) (hd : disp.data[idx]? = some d) :
    (extractDepthMap_ieee p fx baseline disp).data[idx]?
      = some (Fp.toFloat (Fp.div (num_ieee p fx baseline) d)) := by
  simp [extractDepthMap_ieee, cvDivide_ieee, hd]

/-- The variable `num` for `fx = 1000` and `baseline = 120`. -/
theorem num_ieee_example (p : Program) :
    num_ieee p (Fp.fin 1000) (Fp.fin 120) = Fp.fin 120000 := by
  have d1 : Fp.toDouble (Fp.fin 120000) = Fp.fin 120000 := by
    simpa using toDouble_int 120000 (by norm_num) (by decide)
  have f1 : Fp.toFloat (Fp.fin 120000) = Fp.fin 120000 := by
    simpa using toFloat_int 120000 (by norm_num) (by decide)
  have hm : Fp.mul (Fp.fin 1000) (Fp.fin 120) = Fp.fin 120000 := by
    rw [mul_fin_pos _ _ (by norm_num)]
    norm_num
  cases p
  · simp only [num_ieee, hm, d1, f1]
  · simp only [num_ieee, hm, d1]

/-- The variable `num` for `fx = 16777217` and `baseline = 1`. -/
theorem num_ieee_16777217 :
    num_ieee Program.zed_oc_depth_example (Fp.fin 16777217) (Fp.fin 1) = Fp.fin 16777216 ∧
      num_ieee Program.detectball_test (Fp.fin 16777217) (Fp.fin 1) = Fp.fin 16777217 := by
  have d7 : Fp.toDouble (Fp.fin 16777217) = Fp.fin 16777217 := by
    simpa using toDouble_int 16777217 (by norm_num) (by decide)
  have hm : Fp.mul (Fp.fin 16777217) (Fp.fin 1) = Fp.fin 16777217 := by
    rw [mul_fin_pos _ _ (by norm_num), mul_one]
  constructor
  · simp only [num_ieee, hm, d7, toFloat_16777217]
  · simp only [num_ieee, hm, d7]

/-! ## The claims -/

/-- C2, as stated, fails.  With `minDepth_mm = -10` and `maxDepth_mm = 100` the
depth `-5` is finite and strictly within the range, yet the test `depth >= 0`
rejects it and the slot keeps the NaN vector, in both programs.  And the
channels are rounded: with `cx = -16777216`, `fx = 1` and depth 1 at column 1
the formula `(c - cx) * d / fx` is 16777217, and `zed_oc_depth_example.cpp`
stores 16777216, the nearest `float`. -/
theorem in_range_not_accepted_counterexample :
    (Fp.fin (-5)).isFinite = true ∧ Fp.gt (Fp.fin (-5)) (Fp.fin (-10)) = true ∧
      Fp.lt (Fp.fin (-5)) (Fp.fin 100) = true ∧
      accepted (Fp.fin (-5)) (Fp.fin (-10)) (Fp.fin 100) = false ∧
      (∀ p : Program,
        createPointCloud_ieee p ⟨1, 1, [Fp.fin (-5)]⟩
          (Fp.fin 500) (Fp.fin 500) (Fp.fin 0) (Fp.fin 0) (Fp.fin (-10)) (Fp.fin 100)
          = some ⟨1, 1, [sentinel]⟩) ∧
      (backProject_ieee Program.zed_oc_depth_example 0 1 (Fp.fin 1) (Fp.fin 1) (Fp.fin 1)
        (Fp.fin (-16777216)) (Fp.fin 0)).val0 = Fp.fin 16777216 ∧
      (((1 : Int) : ℚ) - (-16777216)) * 1 / 1 = 16777217 := by
  refine ⟨by decide, by decide, by decide, by decide, ?_, ?_, by norm_num⟩
  · intro p
    rw [createPointCloud_ieee_eq p ⟨1, 1, [Fp.fin (-5)]⟩ _ _ _ _ _ _
      ⟨rfl, by norm_num, by norm_num⟩ (by norm_num) (by norm_num)]
    have hb : bufferOf_ieee p ⟨1, 1, [Fp.fin (-5)]⟩ (Fp.fin 500) (Fp.fin 500) (Fp.fin 0)
        (Fp.fin 0) (Fp.fin (-10)) (Fp.fin 100)
        = [slotOf_ieee p 1 (Fp.fin 500) (Fp.fin 500) (Fp.fin 0) (Fp.fin 0)
            (Fp.fin (-10)) (Fp.fin 100) 0 (Fp.fin (-5))] := rfl
    have hacc : accepted (Fp.fin (-5)) (Fp.fin (-10)) (Fp.fin 100) = false := by decide
    rw [hb]
    unfold slotOf_ieee
    rw [hacc]
    rfl
  · have d7 : Fp.toDouble (Fp.fin 16777217) = Fp.fin 16777217 := by
      simpa using toDouble_int 16777217 (by norm_num) (by decide)
    have hsub : Fp.sub (Fp.ofInt 1) (Fp.fin (-16777216)) = Fp.fin 16777217 := by
      norm_num [Fp.sub, Fp.neg, Fp.add, Fp.ofInt, Fp.isnan, Fp.isinf, Fp.toRat, Fp.mkFin]
    show Fp.toFloat (Fp.toDouble (Fp.div (Fp.toDouble (Fp.mul (Fp.toDouble
      (Fp.sub (Fp.ofInt 1) (Fp.fin (-16777216)))) (Fp.fin 1))) (Fp.fin 1))) = Fp.fin 16777216
    rw [hsub, d7, mul_fin_pos _ _ (by norm_num), mul_one, d7, div_fin_pos _ _ (by norm_num),
      div_one, d7, toFloat_16777217]

/-- C2, amended: for every finite depth `d >= 0` strictly within
`(minDepth_mm, maxDepth_mm)` at pixel (row `r`, column `c`) the point is
accepted and slot `r * cols + c` holds `Z = d` and the values of
`X = (c - cx) * d / fx` and `Y = (r - cy) * d / fy` as the programs compute
them: each operation rounded to `double`, and the result rounded to `float`
when `zed_oc_depth_example.cpp` stores it.  With `fx = fy = 500`,
`cx = cy = 0`, `d = 1000` at `(r, c) = (10, 20)` the slot is `(40, 20, 1000)`
in both programs. -/
theorem in_range_back_projection (p : Program) (m : Mat Fp) (fx fy cx cy mn mx : Fp)
    (hwf : m.WF) (hsz : m.rows * m.cols < 2 ^ 31) (r c : Nat) (hc : c < m.cols) (d : Fp)
    (hd : m.data[r * m.cols + c]? = some d)
    (hfin : d.isFinite = true) (h0 : Fp.ge d (Fp.fin 0) = true)
    (hmin : Fp.gt d mn = true) (hmax : Fp.lt d mx = true) :
    ∃ cloud, createPointCloud_ieee p m fx fy cx cy mn mx = some cloud ∧
      accepted d mn mx = true ∧
      cloud.data[r * m.cols + c]? = some (backProject_ieee p r c d fx fy cx cy) ∧
      (backProject_ieee p r c d fx fy cx cy).val2 = d ∧
      backProject_ieee Program.zed_oc_depth_example r c d fx fy cx cy =
        { val0 := Fp.toFloat (Fp.toDouble (Fp.div (Fp.toDouble (Fp.mul
            (Fp.toDouble (Fp.sub (Fp.ofInt c) cx)) d)) fx))
          val1 := Fp.toFloat (Fp.toDouble (Fp.div (Fp.toDouble (Fp.mul
            (Fp.toDouble (Fp.sub (Fp.ofInt r) cy)) d)) fy))
          val2 := d } ∧
      backProject_ieee Program.detectball_test r c d fx fy cx cy =
        { val0 := Fp.toDouble (Fp.div (Fp.toDouble (Fp.mul
            (Fp.toDouble (Fp.sub (Fp.ofInt c) cx)) d)) fx)
          val1 := Fp.toDouble (Fp.div (Fp.toDouble (Fp.mul
            (Fp.toDouble (Fp.sub (Fp.ofInt r) cy)) d)) fy)
          val2 := d } ∧
      (∀ q : Program,
        backProject_ieee q 10 20 (Fp.fin 1000) (Fp.fin 500) (Fp.fin 500) (Fp.fin 0) (Fp.fin 0)
          = ⟨Fp.fin 40, Fp.fin 20, Fp.fin 1000⟩) := by
  have hacc : accepted d mn mx = true := (accepted_iff d mn mx).mpr ⟨hfin, h0, hmin, hmax⟩
  have hne : 0 < m.rows * m.cols := by
    have h1 := (List.getElem?_eq_some_iff.mp hd).1
    rw [hwf.1] at h1
    omega
  refine ⟨_, createPointCloud_ieee_eq p m fx fy cx cy mn mx hwf hsz hne, hacc, ?_, ?_, rfl, rfl,
    backProject_ieee_example⟩
  · show (bufferOf_ieee p m fx fy cx cy mn mx)[r * m.cols + c]? = _
    rw [bufferOf_ieee_getElem? p m fx fy cx cy mn mx hwf _ d hd]
    unfold slotOf_ieee
    rw [if_pos hacc, (decode_pixel m.cols r c hc).1, (decode_pixel m.cols r c hc).2]
  · cases p <;> rfl

/-- Witness of C2 (amended): the example of the claim, an 11x21 depth map
whose depths are all 1000, read at pixel `(r, c) = (10, 20)`. -/
theorem in_range_back_projection_witness :
    ∃ cloud, createPointCloud_ieee Program.zed_oc_depth_example
        ⟨11, 21, List.replicate 231 (Fp.fin 1000)⟩
        (Fp.fin 500) (Fp.fin 500) (Fp.fin 0) (Fp.fin 0) (Fp.fin 300) (Fp.fin 10000)
        = some cloud ∧
      cloud.data[10 * 21 + 20]? = some ⟨Fp.fin 40, Fp.fin 20, Fp.fin 1000⟩ := by
  obtain ⟨cloud, h1, _, h3, _, _, _, h7⟩ :=
    in_range_back_projection Program.zed_oc_depth_example
      ⟨11, 21, List.replicate 231 (Fp.fin 1000)⟩
      (Fp.fin 500) (Fp.fin 500) (Fp.fin 0) (Fp.fin 0) (Fp.fin 300) (Fp.fin 10000)
      ⟨List.length_replicate 231 (Fp.fin 1000), by norm_num, by norm_num⟩ (by norm_num)
      10 20 (by norm_num) (Fp.fin 1000)
      (by rw [List.getElem?_replicate]; rfl) (by decide) (by decide) (by decide) (by decide)
  refine ⟨cloud, h1, ?_⟩
  rw [h3]
  exact congrArg some (h7 Program.zed_oc_depth_example)

/-- C3, as stated, fails: with `fx = 16777217`, `baseline = 1` and disparity 1
the quotient `(fx * baseline) / d` is 16777217, and both programs compute the
depth 16777216: the first one rounds `fx * baseline` to `float`, and the
matrix of depths holds `float` values. -/
theorem depth_not_exact_counterexample :
    Fp.gt (Fp.fin 1) (Fp.fin 0) = true ∧
      (∀ p : Program,
        extractDepthMap_ieee p (Fp.fin 16777217) (Fp.fin 1) ⟨1, 1, [Fp.fin 1]⟩
          = ⟨1, 1, [Fp.fin 16777216]⟩) ∧
      (Fp.div (Fp.mul (Fp.fin 16777217) (Fp.fin 1)) (Fp.fin 1)).toRat? = some 16777217 ∧
      (Fp.fin 16777216).toRat? ≠ some ((16777217 : ℚ) * 1 / 1) := by
  refine ⟨by decide, ?_, ?_, ?_⟩
  · intro p
    cases p
    · simp only [extractDepthMap_ieee, cvDivide_ieee, num_ieee_16777217.1, List.map_cons,
        List.map_nil]
      rw [div_fin_pos _ _ (by norm_num), div_one, toFloat_16777216]
    · simp only [extractDepthMap_ieee, cvDivide_ieee, num_ieee_16777217.2, List.map_cons,
        List.map_nil]
      rw [div_fin_pos _ _ (by norm_num), div_one, toFloat_16777217]
  · rw [mul_fin_pos _ _ (by norm_num), div_fin_pos _ _ (by norm_num)]
    norm_num [Fp.toRat?]
  · norm_num [Fp.toRat?]

/-- C3, amended: for every disparity `d > 0` of a cell and every `fx` and
`baseline` the depth of the cell is `num / d` rounded to `float`, where `num`
is `fx * baseline` rounded to `double` and, in `zed_oc_depth_example.cpp`,
to `float`; when these roundings change nothing the depth is exactly the
rational number `fx * baseline / d`; with `fx = 1000`, `baseline = 120` and
disparity 40 the depth is 3000. -/
theorem depth_of_positive_disparity (p : Program) (fx baseline : Fp) (disp : Mat Fp)
    (idx : Nat) (d : Fp) (hd : disp.data[idx]? = some d)
    (hpos : Fp.gt d (Fp.fin 0) = true) :
    (extractDepthMap_ieee p fx baseline disp).data[idx]?
        = some (Fp.toFloat (Fp.div (num_ieee p fx baseline) d)) ∧
      (extractDepthMap_ieee p fx baseline disp).rows = disp.rows ∧
      (extractDepthMap_ieee p fx baseline disp).cols = disp.cols ∧
      num_ieee Program.zed_oc_depth_example fx baseline
        = Fp.toFloat (Fp.toDouble (Fp.mul fx baseline)) ∧
      num_ieee Program.detectball_test fx baseline = Fp.toDouble (Fp.mul fx baseline) ∧
      (∀ qfx qb qd : ℚ, fx.toRat? = some qfx → baseline.toRat? = some qb →
        d.toRat? = some qd →
        num_ieee p fx baseline = Fp.mul fx baseline →
        Fp.toFloat (Fp.div (Fp.mul fx baseline) d) = Fp.div (Fp.mul fx baseline) d →
        (Fp.toFloat (Fp.div (num_ieee p fx baseline) d)).toRat? = some (qfx * qb / qd)) ∧
      (∀ q : Program,
        extractDepthMap_ieee q (Fp.fin 1000) (Fp.fin 120) ⟨1, 1, [Fp.fin 40]⟩
          = ⟨1, 1, [Fp.fin 3000]⟩) := by
  refine ⟨extractDepthMap_ieee_getElem? p fx baseline disp idx d hd, rfl, rfl, rfl, rfl, ?_, ?_⟩
  · intro qfx qb qd hfx hb hq hnum hquot
    rw [hnum, hquot]
    exact toRat?_div _ _ _ _ (toRat?_mul _ _ _ _ hfx hb) hq
      (ne_of_gt (toRat_pos_of_gt_zero d qd hpos hq))
  · intro q
    have f3 : Fp.toFloat (Fp.fin 3000) = Fp.fin 3000 := by
      simpa using toFloat_int 3000 (by norm_num) (by decide)
    simp only [extractDepthMap_ieee, cvDivide_ieee, num_ieee_example, List.map_cons,
      List.map_nil]
    rw [div_fin_pos _ _ (by norm_num)]
    norm_num
    exact f3

/-- Witness of C3 (amended): the example of the claim on a 1x1 disparity
map. -/
theorem depth_of_positive_disparity_witness :
    (extractDepthMap_ieee Program.zed_oc_depth_example (Fp.fin 1000) (Fp.fin 120)
        ⟨1, 1, [Fp.fin 40]⟩).data[0]?
        = some (Fp.toFloat (Fp.div
            (num_ieee Program.zed_oc_depth_example (Fp.fin 1000) (Fp.fin 120)) (Fp.fin 40))) ∧
      extractDepthMap_ieee Program.zed_oc_depth_example (Fp.fin 1000) (Fp.fin 120)
        ⟨1, 1, [Fp.fin 40]⟩ = ⟨1, 1, [Fp.fin 3000]⟩ :=
  ⟨(depth_of_positive_disparity Program.zed_oc_depth_example (Fp.fin 1000) (Fp.fin 120)
      ⟨1, 1, [Fp.fin 40]⟩ 0 (Fp.fin 40) rfl (by decide)).1,
    (depth_of_positive_disparity Program.zed_oc_depth_example (Fp.fin 1000) (Fp.fin 120)
      ⟨1, 1, [Fp.fin 40]⟩ 0 (Fp.fin 40) rfl (by decide)).2.2.2.2.2.2
      Program.zed_oc_depth_example⟩

/-- C4: for every pixel whose depth is not finite or lies outside the open
interval `(minDepth_mm, maxDepth_mm)` the slot of the cloud is the initial
vector, whose three channels are NaN: no channel holds a finite value. -/
theorem rejected_slot_is_sentinel (p : Program) (m : Mat Fp) (fx fy cx cy mn mx : Fp)
    (hwf : m.WF) (hsz : m.rows * m.cols < 2 ^ 31) (idx : Nat) (d : Fp)
    (hd : m.data[idx]? = some d)
    (hrej : d.isFinite = false ∨ ¬ (Fp.gt d mn = true ∧ Fp.lt d mx = true)) :
    ∃ cloud slot, createPointCloud p m fx fy cx cy mn mx = some cloud ∧
      cloud.data[idx]? = some slot ∧ slot = sentinel ∧
      slot.val0 = Fp.nan ∧ slot.val1 = Fp.nan ∧ slot.val2 = Fp.nan ∧
      slot.val0.isFinite = false ∧ slot.val1.isFinite = false ∧
      slot.val2.isFinite = false := by
  have hacc : ¬ accepted d mn mx = true := by
    rw [accepted_iff]
    rintro ⟨h1, _, h3, h4⟩
    rcases hrej with h | h
    · rw [h] at h1
      exact Bool.false_ne_true h1
    · exact h ⟨h3, h4⟩
  refine ⟨_, sentinel, createPointCloud_eq p m fx fy cx cy mn mx hwf hsz, ?_, rfl, rfl, rfl,
    rfl, rfl, rfl, rfl⟩
  rw [cloudOf_getElem? m fx fy cx cy mn mx hwf idx d hd]
  unfold slotOf
  rw [if_neg hacc]

/-- Witness of C4: a 2x2 depth map whose second depth is an infinity. -/
theorem rejected_slot_is_sentinel_witness :
    ∃ cloud slot, createPointCloud Program.zed_oc_depth_example
        ⟨2, 2, [Fp.fin 1000, Fp.pinf, Fp.nan, Fp.fin 20000]⟩
        (Fp.fin 500) (Fp.fin 500) (Fp.fin 0) (Fp.fin 0) (Fp.fin 300) (Fp.fin 10000)
        = some cloud ∧
      cloud.data[1]? = some slot ∧ slot = sentinel ∧
      slot.val0 = Fp.nan ∧ slot.val1 = Fp.nan ∧ slot.val2 = Fp.nan ∧
      slot.val0.isFinite = false ∧ slot.val1.isFinite = false ∧
      slot.val2.isFinite = false :=
  rejected_slot_is_sentinel Program.zed_oc_depth_example
    ⟨2, 2, [Fp.fin 1000, Fp.pinf, Fp.nan, Fp.fin 20000]⟩
    (Fp.fin 500) (Fp.fin 500) (Fp.fin 0) (Fp.fin 0) (Fp.fin 300) (Fp.fin 10000)
    ⟨rfl, by norm_num, by norm_num⟩ (by norm_num) 1 Fp.pinf rfl (Or.inl rfl)

/-- C6: for every depth grid of width `W` and height `H` (so for `W >= 1` and
`H >= 1`) with `W * H < 2 ^ 31` the value `buf_size`, computed as `cols * rows` in 32 bit
signed arithmetic (and converted to `size_t` in the second program), is the
product `W * H`; the cloud matrix has the rows and columns of the depth map
and exactly `W * H` slots.  At 672x376 the product is 252672. -/
theorem cloud_slot_count (p : Program) (m : Mat Fp) (fx fy cx cy mn mx : Fp)
    (hwf : m.WF) (hsz : m.cols * m.rows < 2 ^ 31) :
    mulInt32 (m.cols : Int) (m.rows : Int) = (m.cols : Int) * (m.rows : Int) ∧
      toSizeT (mulInt32 (m.cols : Int) (m.rows : Int)) = m.cols * m.rows ∧
      (∃ cloud, createPointCloud p m fx fy cx cy mn mx = some cloud ∧
        cloud.rows = m.rows ∧ cloud.cols = m.cols ∧
        cloud.data.length = m.cols * m.rows) ∧
      mulInt32 672 376 = 252672 ∧ (252672 : Int) < 2 ^ 31 := by
  have hsz2 : m.rows * m.cols < 2 ^ 31 := by rw [Nat.mul_comm]; exact hsz
  have hmul := mulInt32_dims m.rows m.cols hsz2
  refine ⟨?_, ?_, ?_, ?_, by norm_num⟩
  · rw [hmul]
    push_cast
    ring
  · rw [hmul, toSizeT_eq _ (Int.ofNat_nonneg _) (by norm_num at hsz2 ⊢; omega), Int.toNat_ofNat,
      Nat.mul_comm]
  · refine ⟨_, createPointCloud_eq p m fx fy cx cy mn mx hwf hsz2, rfl, rfl, ?_⟩
    simp [cloudOf, Nat.mul_comm]
  · unfold mulInt32 wrapInt32
    norm_num

/-- Witness of C6: a 2x3 depth map. -/
theorem cloud_slot_count_witness :
    ∃ cloud, createPointCloud Program.zed_oc_depth_example
        ⟨2, 3, [Fp.fin 1000, Fp.pinf, Fp.nan, Fp.fin 2000, Fp.fin 1, Fp.nzero]⟩
        (Fp.fin 500) (Fp.fin 500) (Fp.fin 0) (Fp.fin 0) (Fp.fin 300) (Fp.fin 10000)
        = some cloud ∧
      cloud.rows = 2 ∧ cloud.cols = 3 ∧ cloud.data.length = 3 * 2 :=
  (cloud_slot_count Program.zed_oc_depth_example
    ⟨2, 3, [Fp.fin 1000, Fp.pinf, Fp.nan, Fp.fin 2000, Fp.fin 1, Fp.nzero]⟩
    (Fp.fin 500) (Fp.fin 500) (Fp.fin 0) (Fp.fin 0) (Fp.fin 300) (Fp.fin 10000)
    ⟨rfl, by norm_num, by norm_num⟩ (by norm_num)).2.2.1

/-- C7: the bounds of the depth range are exclusive on both ends: for every
`minDepth_mm` and `maxDepth_mm` a pixel whose depth equals `minDepth_mm` or
equals `maxDepth_mm` is rejected and its slot keeps the NaN vector; with
`minDepth_mm = 50` the depth 50 is rejected and, when `maxDepth_mm > 50.0001`,
the depth 50.0001 is accepted. -/
theorem bounds_are_exclusive (p : Program) (m : Mat Fp) (fx fy cx cy mn mx : Fp)
    (hwf : m.WF) (hsz : m.rows * m.cols < 2 ^ 31) (idx : Nat) (d : Fp)
    (hd : m.data[idx]? = some d)
    (hb : d = mn ∨ d = mx ∨ Fp.eq d mn = true ∨ Fp.eq d mx = true) :
    accepted d mn mx = false ∧
      (∃ cloud, createPointCloud p m fx fy cx cy mn mx = some cloud ∧
        cloud.data[idx]? = some sentinel) ∧
      accepted (Fp.fin 50) (Fp.fin 50) mx = false ∧
      (Fp.gt mx (Fp.fin (500001 / 10000)) = true →
        accepted (Fp.fin (500001 / 10000)) (Fp.fin 50) mx = true) := by
  have hacc : accepted d mn mx = false := by
    rw [Bool.eq_false_iff, Ne, accepted_iff]
    rintro ⟨_, _, h3, h4⟩
    rcases hb with h | h | h | h
    · subst h
      rw [Fp.gt, not_lt_self] at h3
      exact Bool.false_ne_true h3
    · subst h
      rw [not_lt_self] at h4
      exact Bool.false_ne_true h4
    · rw [Fp.gt, (not_lt_of_eq d mn h).2] at h3
      exact Bool.false_ne_true h3
    · rw [(not_lt_of_eq d mx h).1] at h4
      exact Bool.false_ne_true h4
  refine ⟨hacc, ⟨_, createPointCloud_eq p m fx fy cx cy mn mx hwf hsz, ?_⟩, ?_, ?_⟩
  · rw [cloudOf_getElem? m fx fy cx cy mn mx hwf idx d hd]
    unfold slotOf
    rw [hacc]
    rfl
  · simp [accepted, Fp.gt, Fp.lt]
  · intro h
    rw [accepted_iff]
    refine ⟨rfl, ?_, ?_, h⟩
    · simp [Fp.ge, Fp.lt, Fp.toRat]
    · simp only [Fp.gt, Fp.lt, Fp.toRat, decide_eq_true_eq]
      norm_num

/-- Witness of C7: a 1x2 depth map whose depths are the two bounds. -/
theorem bounds_are_exclusive_witness :
    accepted (Fp.fin 10000) (Fp.fin 50) (Fp.fin 10000) = false ∧
      (∃ cloud, createPointCloud Program.detectball_test ⟨1, 2, [Fp.fin 50, Fp.fin 10000]⟩
          (Fp.fin 500) (Fp.fin 500) (Fp.fin 0) (Fp.fin 0) (Fp.fin 50) (Fp.fin 10000)
          = some cloud ∧
        cloud.data[1]? = some sentinel) ∧
      accepted (Fp.fin 50) (Fp.fin 50) (Fp.fin 10000) = false ∧
      (Fp.gt (Fp.fin 10000) (Fp.fin (500001 / 10000)) = true →
        accepted (Fp.fin (500001 / 10000)) (Fp.fin 50) (Fp.fin 10000) = true) :=
  bounds_are_exclusive Program.detectball_test ⟨1, 2, [Fp.fin 50, Fp.fin 10000]⟩
    (Fp.fin 500) (Fp.fin 500) (Fp.fin 0) (Fp.fin 0) (Fp.fin 50) (Fp.fin 10000)
    ⟨rfl, by norm_num, by norm_num⟩ (by norm_num) 1 (Fp.fin 10000) rfl (Or.inr (Or.inl rfl))

/-- C9, as stated, fails: with `fx = 1000` and `baseline = 120` the negative
disparity -40 gives the finite depth -3000, and the infinite disparity gives
the finite depth 0, in both programs. -/
theorem invalid_disparity_nonfinite_counterexample :
    Fp.lt (Fp.fin (-40)) (Fp.fin 0) = true ∧ Fp.gt (Fp.fin 1000) (Fp.fin 0) = true ∧
      (∀ p : Program,
        extractDepthMap_ieee p (Fp.fin 1000) (Fp.fin 120) ⟨1, 1, [Fp.fin (-40)]⟩
          = ⟨1, 1, [Fp.fin (-3000)]⟩) ∧
      (Fp.fin (-3000)).isFinite = true ∧
      (Fp.pinf).isFinite = false ∧
      (∀ p : Program,
        extractDepthMap_ieee p (Fp.fin 1000) (Fp.fin 120) ⟨1, 1, [Fp.pinf]⟩
          = ⟨1, 1, [Fp.fin 0]⟩) ∧
      (Fp.fin 0).isFinite = true := by
  refine ⟨by decide, by decide, ?_, rfl, rfl, ?_, rfl⟩
  · intro p
    have f3 : Fp.toFloat (Fp.fin (-3000)) = Fp.fin (-3000) := by
      simpa using toFloat_int (-3000) (by norm_num) (by decide)
    have hdiv : Fp.div (Fp.fin 120000) (Fp.fin (-40)) = Fp.fin (-3000) := by
      norm_num [Fp.div, Fp.isnan, Fp.isinf, Fp.isZero, Fp.mkFin, Fp.toRat]
    simp only [extractDepthMap_ieee, cvDivide_ieee, num_ieee_example, List.map_cons,
      List.map_nil, hdiv, f3]
  · intro p
    have hdiv : Fp.div (Fp.fin 120000) Fp.pinf = Fp.fin 0 := by
      simp [Fp.div, Fp.isnan, Fp.isinf, Fp.signBit, Fp.mkZero]
    have f0 : Fp.toFloat (Fp.fin 0) = Fp.fin 0 := by
      simp [Fp.toFloat, Fp.roundTo]
    simp only [extractDepthMap_ieee, cvDivide_ieee, num_ieee_example, List.map_cons,
      List.map_nil, hdiv, f0]

/-- C9, amended: for every disparity that is a zero (of either sign) or a NaN
and every `fx` and `baseline` the depth of the cell, `num / disparity` rounded
to `float`, is not finite, in both programs. -/
theorem depth_of_zero_or_nan_disparity (p : Program) (fx baseline : Fp) (disp : Mat Fp)
    (idx : Nat) (d : Fp) (hd : disp.data[idx]? = some d)
    (hz : d.isZero = true ∨ d.isnan = true) :
    ∃ depth, (extractDepthMap_ieee p fx baseline disp).data[idx]? = some depth ∧
      depth = Fp.toFloat (Fp.div (num_ieee p fx baseline) d) ∧ depth.isFinite = false := by
  refine ⟨_, extractDepthMap_ieee_getElem? p fx baseline disp idx d hd, rfl, ?_⟩
  have h := div_zero_or_nan (num_ieee p fx baseline) d hz
  unfold Fp.toFloat
  rw [roundTo_of_not_finite 24 127 _ h]
  exact h

/-- Witness of C9 (amended): a 1x2 disparity map holding a negative zero and
a NaN. -/
theorem depth_of_zero_or_nan_disparity_witness :
    ∃ depth, (extractDepthMap_ieee Program.zed_oc_depth_example (Fp.fin 1000) (Fp.fin 120)
        ⟨1, 2, [Fp.nzero, Fp.nan]⟩).data[0]? = some depth ∧
      depth = Fp.toFloat (Fp.div
        (num_ieee Program.zed_oc_depth_example (Fp.fin 1000) (Fp.fin 120)) Fp.nzero) ∧
      depth.isFinite = false :=
  depth_of_zero_or_nan_disparity Program.zed_oc_depth_example (Fp.fin 1000) (Fp.fin 120)
    ⟨1, 2, [Fp.nzero, Fp.nan]⟩ 0 Fp.nzero rfl (Or.inl rfl)

/-- C10, as stated, fails: with `fx = 1000` and the negative baseline -120 a
disparity map whose only cell is the negative disparity -40 gives the depth
3000, which the range (300, 10000) accepts, so the cloud is not empty; and
with `baseline = 120` an infinite disparity gives the depth 0, which the
range (-1, 10000) accepts. -/
theorem invalid_disparity_accepted_counterexample :
    Fp.lt (Fp.fin (-40)) (Fp.fin 0) = true ∧
      (∀ p : Program,
        createPointCloud p (extractDepthMap (Fp.fin 1000) (Fp.fin (-120)) ⟨1, 1, [Fp.fin (-40)]⟩)
          (Fp.fin 1000) (Fp.fin 1000) (Fp.fin 0) (Fp.fin 0) (Fp.fin 300) (Fp.fin 10000)
          = some ⟨1, 1, [⟨Fp.fin 0, Fp.fin 0, Fp.fin 3000⟩]⟩) ∧
      (⟨Fp.fin 0, Fp.fin 0, Fp.fin 3000⟩ : Vec3) ≠ sentinel ∧
      Fp.pinf.isFinite = false ∧
      (∀ p : Program,
        createPointCloud p (extractDepthMap (Fp.fin 1000) (Fp.fin 120) ⟨1, 1, [Fp.pinf]⟩)
          (Fp.fin 1000) (Fp.fin 1000) (Fp.fin 0) (Fp.fin 0) (Fp.fin (-1)) (Fp.fin 10000)
          = some ⟨1, 1, [⟨Fp.fin 0, Fp.fin 0, Fp.fin 0⟩]⟩) ∧
      (⟨Fp.fin 0, Fp.fin 0, Fp.fin 0⟩ : Vec3) ≠ sentinel := by
  have h1 : extractDepthMap (Fp.fin 1000) (Fp.fin (-120)) ⟨1, 1, [Fp.fin (-40)]⟩
      = ⟨1, 1, [Fp.fin 3000]⟩ := by
    simp [extractDepthMap, cvDivide, Fp.div, Fp.mul, Fp.isnan, Fp.isinf, Fp.isZero, Fp.mkFin,
      Fp.toRat, Fp.signBit, Fp.mkZero]
    norm_num
  have h2 : extractDepthMap (Fp.fin 1000) (Fp.fin 120) ⟨1, 1, [Fp.pinf]⟩
      = ⟨1, 1, [Fp.fin 0]⟩ := by
    simp [extractDepthMap, cvDivide, Fp.div, Fp.mul, Fp.isnan, Fp.isinf, Fp.isZero, Fp.mkFin,
      Fp.toRat, Fp.signBit, Fp.mkZero]
  refine ⟨by decide, ?_, by decide, rfl, ?_, by decide⟩
  · intro p
    rw [h1, createPointCloud_eq p ⟨1, 1, [Fp.fin 3000]⟩ _ _ _ _ _ _
      ⟨rfl, by norm_num, by norm_num⟩ (by norm_num)]
    have hc : cloudOf ⟨1, 1, [Fp.fin 3000]⟩ (Fp.fin 1000) (Fp.fin 1000) (Fp.fin 0) (Fp.fin 0)
        (Fp.fin 300) (Fp.fin 10000)
        = ⟨1, 1, [slotOf 1 (Fp.fin 1000) (Fp.fin 1000) (Fp.fin 0) (Fp.fin 0)
            (Fp.fin 300) (Fp.fin 10000) 0 (Fp.fin 3000)]⟩ := rfl
    rw [hc]
    norm_num [slotOf, accepted, backProject, Fp.ge, Fp.gt, Fp.lt, Fp.eq, Fp.ofInt,
      Fp.div, Fp.mul, Fp.sub, Fp.add, Fp.neg, Fp.isnan, Fp.isinf, Fp.isZero, Fp.mkFin,
      Fp.toRat, Fp.signBit, Fp.mkZero]
  · intro p
    rw [h2, createPointCloud_eq p ⟨1, 1, [Fp.fin 0]⟩ _ _ _ _ _ _
      ⟨rfl, by norm_num, by norm_num⟩ (by norm_num)]
    have hc : cloudOf ⟨1, 1, [Fp.fin 0]⟩ (Fp.fin 1000) (Fp.fin 1000) (Fp.fin 0) (Fp.fin 0)
        (Fp.fin (-1)) (Fp.fin 10000)
        = ⟨1, 1, [slotOf 1 (Fp.fin 1000) (Fp.fin 1000) (Fp.fin 0) (Fp.fin 0)
            (Fp.fin (-1)) (Fp.fin 10000) 0 (Fp.fin 0)]⟩ := rfl
    rw [hc]
    norm_num [slotOf, accepted, backProject, Fp.ge, Fp.gt, Fp.lt, Fp.eq, Fp.ofInt,
      Fp.div, Fp.mul, Fp.sub, Fp.add, Fp.neg, Fp.isnan, Fp.isinf, Fp.isZero, Fp.mkFin,
      Fp.toRat, Fp.signBit, Fp.mkZero]

/-- C10, amended: if every cell of the disparity map is invalid (a zero,
negative, or not finite), `fx * baseline` is not negative and `minDepth_mm` is
not negative, then the depth computation followed by the point cloud loop
yields, in both programs, the cloud whose `W * H` slots all hold the NaN
vector. -/
theorem invalid_disparity_empty_cloud (p : Program) (disp : Mat Fp)
    (fx fy cx cy baseline mn mx : Fp) (hwf : disp.WF) (hsz : disp.rows * disp.cols < 2 ^ 31)
    (hinv : ∀ d ∈ disp.data,
      d.isZero = true ∨ Fp.lt d (Fp.fin 0) = true ∨ d.isFinite = false)
    (hnum : Fp.lt (Fp.mul fx baseline) (Fp.fin 0) = false)
    (hmn : Fp.ge mn (Fp.fin 0) = true) :
    createPointCloud p (extractDepthMap fx baseline disp) fx fy cx cy mn mx
      = some ⟨disp.rows, disp.cols, List.replicate (disp.rows * disp.cols) sentinel⟩ := by
  rw [createPointCloud_eq p _ fx fy cx cy mn mx (extractDepthMap_WF fx baseline disp hwf) hsz]
  congr 1
  unfold cloudOf
  congr 1
  rw [List.eq_replicate_iff]
  refine ⟨by simp [extractDepthMap, cvDivide], ?_⟩
  intro b hb
  rw [List.mem_map] at hb
  obtain ⟨idx, hidx, rfl⟩ := hb
  have hlt : idx < disp.data.length := by
    rw [hwf.1]
    exact List.mem_range.mp hidx
  have hget : (extractDepthMap fx baseline disp).data.getD idx Fp.nan
      = Fp.div (Fp.mul fx baseline) disp.data[idx] := by
    simp [extractDepthMap, cvDivide, List.getElem?_eq_getElem hlt]
  rw [hget]
  unfold slotOf
  rw [invalid_disparity_rejected _ _ mn mx (hinv _ (List.getElem_mem hlt)) hnum hmn]
  rfl

/-- Witness of C10 (amended): a 2x2 disparity map of a zero, a negative
value, a NaN and an infinity. -/
theorem invalid_disparity_empty_cloud_witness :
    createPointCloud Program.zed_oc_depth_example
        (extractDepthMap (Fp.fin 1000) (Fp.fin 120)
          ⟨2, 2, [Fp.fin 0, Fp.fin (-40), Fp.nan, Fp.pinf]⟩)
        (Fp.fin 1000) (Fp.fin 1000) (Fp.fin 640) (Fp.fin 360) (Fp.fin 300) (Fp.fin 10000)
      = some ⟨2, 2, List.replicate (2 * 2) sentinel⟩ :=
  invalid_disparity_empty_cloud Program.zed_oc_depth_example
    ⟨2, 2, [Fp.fin 0, Fp.fin (-40), Fp.nan, Fp.pinf]⟩
    (Fp.fin 1000) (Fp.fin 1000) (Fp.fin 640) (Fp.fin 360) (Fp.fin 120) (Fp.fin 300)
    (Fp.fin 10000) ⟨rfl, by norm_num, by norm_num⟩ (by norm_num)
    (by
      intro d hd
      simp only [List.mem_cons, List.mem_singleton, List.not_mem_nil, or_false] at hd
      rcases hd with h | h | h | h <;> subst h <;> decide)
    (by simp [Fp.mul, Fp.isnan, Fp.isinf, Fp.mkFin, Fp.toRat, Fp.lt])
    (by decide)

/-- C12: the cloud built for a processed frame depends on the depth grid of
that frame, the intrinsics and the depth range only: from any two states of
the capture loop (any earlier `cloudMat`) the same frame gives the same
`cloudMat`, the one the point cloud loop gives on the depth map of the frame,
and every pixel whose depth is rejected has the NaN vector in its slot,
whatever the earlier cloud held there. -/
theorem cloud_depends_on_frame_only (p : Program) (cvResize : Fp → Mat Fp → Mat Fp)
    (s : Session) (st1 st2 : GrabState) (frame : Frame) (hwf : frame.WF cvResize)
    (hd : frame.data = true) (h1 : frame.timestamp ≠ st1.last_ts)
    (h2 : frame.timestamp ≠ st2.last_ts) :
    ∃ cloud,
      createPointCloud p (disparityToDepth s.minDisparity s.fx s.baseline
          (stereoMatching cvResize true frame.left_disp_half))
        s.fx s.fy s.cx s.cy s.minDepth_mm s.maxDepth_mm = some cloud ∧
      grabStep p cvResize s st1 frame
        = some { last_ts := frame.timestamp, cloudMat := cloud,
                 processed := st1.processed ++ [frame.timestamp] } ∧
      grabStep p cvResize s st2 frame
        = some { last_ts := frame.timestamp, cloudMat := cloud,
                 processed := st2.processed ++ [frame.timestamp] } ∧
      ∀ (idx : Nat) (d : Fp), (disparityToDepth s.minDisparity s.fx s.baseline
          (stereoMatching cvResize true frame.left_disp_half)).data[idx]? = some d →
        accepted d s.minDepth_mm s.maxDepth_mm = false →
        cloud.data[idx]? = some sentinel := by
  have hp := processFrame_eq p cvResize s frame hwf
  refine ⟨_, ?_, grabStep_new p cvResize s st1 frame _ hp hd h1,
    grabStep_new p cvResize s st2 frame _ hp hd h2, ?_⟩
  · exact createPointCloud_eq p _ _ _ _ _ _ _ (disparityToDepth_WF _ _ _ _ hwf.1) hwf.2
  · intro idx d hd2 hacc
    rw [cloudOf_getElem? _ _ _ _ _ _ _ (disparityToDepth_WF _ _ _ _ hwf.1) idx d hd2]
    unfold slotOf
    rw [hacc]
    rfl

/-- Witness of C12: a frame of one cell, delivered in the initial state and
in a state that holds the cloud of an earlier frame. -/
theorem cloud_depends_on_frame_only_witness :
    ∃ cloud,
      grabStep Program.zed_oc_depth_example (fun _ m => upsample2 m)
          ⟨Fp.fin 1000, Fp.fin 1000, Fp.fin 0, Fp.fin 0, Fp.fin 120, 1, Fp.fin 300, Fp.fin 10000⟩
          GrabState.init ⟨true, 5, ⟨1, 1, [320]⟩⟩
        = some { last_ts := 5, cloudMat := cloud, processed := [] ++ [5] } ∧
      grabStep Program.zed_oc_depth_example (fun _ m => upsample2 m)
          ⟨Fp.fin 1000, Fp.fin 1000, Fp.fin 0, Fp.fin 0, Fp.fin 120, 1, Fp.fin 300, Fp.fin 10000⟩
          ⟨3, ⟨1, 1, [⟨Fp.fin 1, Fp.fin 1, Fp.fin 1⟩]⟩, [3]⟩ ⟨true, 5, ⟨1, 1, [320]⟩⟩
        = some { last_ts := 5, cloudMat := cloud, processed := [3] ++ [5] } := by
  obtain ⟨cloud, _, h2, h3, _⟩ := cloud_depends_on_frame_only Program.zed_oc_depth_example
    (fun _ m => upsample2 m)
    ⟨Fp.fin 1000, Fp.fin 1000, Fp.fin 0, Fp.fin 0, Fp.fin 120, 1, Fp.fin 300, Fp.fin 10000⟩
    GrabState.init ⟨3, ⟨1, 1, [⟨Fp.fin 1, Fp.fin 1, Fp.fin 1⟩]⟩, [3]⟩
    ⟨true, 5, ⟨1, 1, [320]⟩⟩ ⟨⟨rfl, by decide, by decide⟩, by decide⟩ rfl (by decide) (by decide)
  exact ⟨cloud, h2, h3⟩

/-- C13: in the ball detector a circle of rounded centre `(x, y)` and rounded
radius `rad >= 0` (whose sums `x ± rad`, `y ± rad` fit in an `int`) is skipped
if and only if its bounding square `[x-rad, x+rad] x [y-rad, y+rad]` is not
contained in `[0, cols-1] x [0, rows-1]` of the depth map; every circle
completely inside the image is processed: its depth is read at
`(center.y, center.x)`. -/
theorem circle_skipped_iff (m : Mat Fp) (hwf : m.WF) (x y radius : Int) (hr : 0 ≤ radius)
    (hx1 : -(2 ^ 31) ≤ x - radius) (hx2 : x + radius < 2 ^ 31)
    (hy1 : -(2 ^ 31) ≤ y - radius) (hy2 : y + radius < 2 ^ 31) :
    (circleSkipped m.cols m.rows x y radius = true ↔
      ¬ (∀ u v : Int, x - radius ≤ u → u ≤ x + radius → y - radius ≤ v → v ≤ y + radius →
          (0 ≤ u ∧ u ≤ (m.cols : Int) - 1 ∧ 0 ≤ v ∧ v ≤ (m.rows : Int) - 1))) ∧
      (processCircle m x y radius = some CircleResult.skipped ↔
        circleSkipped m.cols m.rows x y radius = true) ∧
      (circleSkipped m.cols m.rows x y radius = false →
        ∃ d, m.data[(y * m.cols + x).toNat]? = some d ∧
          processCircle m x y radius = some (CircleResult.processed d)) := by
  have hiff := circleSkipped_eq_false_iff m.cols m.rows x y radius hx1 hx2 hy1 hy2 hr
  have hproc := processCircle_of_not_skipped m hwf x y radius hx1 hx2 hy1 hy2 hr
  refine ⟨?_, ?_, fun h => (hproc h).2.2⟩
  · rw [← Bool.not_eq_false, hiff, not_iff_not]
    constructor
    · rintro ⟨h1, h2, h3, h4⟩ u v hu1 hu2 hv1 hv2
      exact ⟨by omega, by omega, by omega, by omega⟩
    · intro h
      have ha := h (x - radius) (y - radius) le_rfl (by omega) le_rfl (by omega)
      have hb := h (x + radius) (y + radius) (by omega) le_rfl (by omega) le_rfl
      exact ⟨ha.1, ha.2.2.1, by omega, by omega⟩
  · constructor
    · intro h
      by_contra hns
      rw [Bool.not_eq_true] at hns
      obtain ⟨d, _, hd⟩ := (hproc hns).2.2
      rw [hd] at h
      exact absurd h (by simp)
    · intro h
      unfold processCircle
      rw [if_pos h]

/-- Witness of C13: a circle of radius 1 at `(2, 1)` in a 4x4 depth map. -/
theorem circle_skipped_iff_witness :
    circleSkipped 4 4 2 1 1 = false ∧
      ∃ d, (⟨4, 4, List.replicate 16 (Fp.fin 1000)⟩ : Mat Fp).data[((1 : Int) * 4 + 2).toNat]?
          = some d ∧
        processCircle ⟨4, 4, List.replicate 16 (Fp.fin 1000)⟩ 2 1 1
          = some (CircleResult.processed d) := by
  have hns : circleSkipped 4 4 2 1 1 = false := by decide
  exact ⟨hns, (circle_skipped_iff ⟨4, 4, List.replicate 16 (Fp.fin 1000)⟩
    ⟨rfl, by norm_num, by norm_num⟩ 2 1 1 (by norm_num) (by norm_num) (by norm_num)
    (by norm_num) (by norm_num)).2.2 hns⟩

/-- C15: in the ball detector, for every circle with `rad >= 0` (whose sums
`x ± rad`, `y ± rad` fit in an `int`) that is not skipped, the depth lookup at
`(row = center.y, col = center.x)` is in bounds: `0 <= center.x < cols` and
`0 <= center.y < rows`, the element read lies in the depth map and the
iteration yields its depth. -/
theorem circle_lookup_in_bounds (m : Mat Fp) (hwf : m.WF) (x y radius : Int) (hr : 0 ≤ radius)
    (hx1 : -(2 ^ 31) ≤ x - radius) (hx2 : x + radius < 2 ^ 31)
    (hy1 : -(2 ^ 31) ≤ y - radius) (hy2 : y + radius < 2 ^ 31)
    (hns : circleSkipped m.cols m.rows x y radius = false) :
    0 ≤ x ∧ x < m.cols ∧ 0 ≤ y ∧ y < m.rows ∧
      (y * m.cols + x).toNat < m.rows * m.cols ∧
      ∃ d, m.data[(y * m.cols + x).toNat]? = some d ∧
        processCircle m x y radius = some (CircleResult.processed d) := by
  obtain ⟨⟨h1, h2, h3, h4⟩, h5, h6⟩ :=
    processCircle_of_not_skipped m hwf x y radius hx1 hx2 hy1 hy2 hr hns
  rw [hwf.1] at h5
  exact ⟨h1, h2, h3, h4, h5, h6⟩

/-- Witness of C15: a circle of radius 1 at `(1, 2)` in a 4x4 depth map. -/
theorem circle_lookup_in_bounds_witness :
    (0 : Int) ≤ 1 ∧ (1 : Int) < ((4 : Nat) : Int) ∧ (0 : Int) ≤ 2 ∧ (2 : Int) < ((4 : Nat) : Int) ∧
      ((2 : Int) * ((4 : Nat) : Int) + 1).toNat < 4 * 4 ∧
      ∃ d, (⟨4, 4, List.replicate 16 (Fp.fin 1000)⟩ : Mat Fp).data[
            ((2 : Int) * ((4 : Nat) : Int) + 1).toNat]? = some d ∧
        processCircle ⟨4, 4, List.replicate 16 (Fp.fin 1000)⟩ 1 2 1
          = some (CircleResult.processed d) :=
  circle_lookup_in_bounds ⟨4, 4, List.replicate 16 (Fp.fin 1000)⟩
    ⟨rfl, by norm_num, by norm_num⟩ 1 2 1 (by norm_num) (by norm_num) (by norm_num)
    (by norm_num) (by norm_num) (by decide)

/-- C14: before the depth is computed the fixed point output `s` of the
matcher is normalized once: it is multiplied by `1/16` and, at half size
(`resize_fact = 0.5`), by `2 = 1/resize_fact`, so the cell fed to the resize is
`s / 8` (`s / 16` at full size); between the resize and the depth division the
disparity only gets the offset added, no other factor. -/
theorem disparity_normalized_once (cvResize : Fp → Mat Fp → Mat Fp) (left_disp_half : Mat Int)
    (minDisparity : Int) (fx baseline : Fp) (idx : Nat) (s : Int)
    (hs : left_disp_half.data[idx]? = some s) :
    Fp.div (Fp.fin 1) (Fp.fin 16) = Fp.fin (1 / 16) ∧
      Fp.div (Fp.fin 1) (resize_fact true) = Fp.fin 2 ∧
      (normalizeDisparity true left_disp_half).data[idx]? = some (Fp.fin ((s : ℚ) / 8)) ∧
      (normalizeDisparity false left_disp_half).data[idx]? = some (Fp.fin ((s : ℚ) / 16)) ∧
      stereoMatching cvResize true left_disp_half
        = cvResize (Fp.fin 2) (normalizeDisparity true left_disp_half) ∧
      disparityToDepth minDisparity fx baseline (stereoMatching cvResize true left_disp_half)
        = cvDivide (Fp.mul fx baseline)
            (cvAdd (cvResize (Fp.fin 2) (normalizeDisparity true left_disp_half))
              (Fp.neg (Fp.ofInt (wrapInt32 (minDisparity - 1))))) := by
  have h2 : Fp.div (Fp.fin 1) (resize_fact true) = Fp.fin 2 := by
    simp [resize_fact, Fp.div, Fp.isnan, Fp.isinf, Fp.isZero, Fp.toRat, Fp.mkFin]
  have hst : stereoMatching cvResize true left_disp_half
      = cvResize (Fp.fin 2) (normalizeDisparity true left_disp_half) := by
    unfold stereoMatching
    simp only [if_true, h2]
  refine ⟨one_div_sixteen, h2, (normalizeDisparity_getElem? left_disp_half idx s hs).1,
    (normalizeDisparity_getElem? left_disp_half idx s hs).2, hst, ?_⟩
  rw [hst]
  rfl

/-- Witness of C14: the matcher output 320 is 40 pixels at half size. -/
theorem disparity_normalized_once_witness :
    (normalizeDisparity true ⟨1, 2, [320, -16]⟩).data[0]? = some (Fp.fin (((320 : Int) : ℚ) / 8)) ∧
      (normalizeDisparity false ⟨1, 2, [320, -16]⟩).data[0]?
        = some (Fp.fin (((320 : Int) : ℚ) / 16)) :=
  ⟨(disparity_normalized_once (fun _ m => upsample2 m) ⟨1, 2, [320, -16]⟩ 1 (Fp.fin 1000)
      (Fp.fin 120) 0 320 rfl).2.2.1,
    (disparity_normalized_once (fun _ m => upsample2 m) ⟨1, 2, [320, -16]⟩ 1 (Fp.fin 1000)
      (Fp.fin 120) 0 320 rfl).2.2.2.1⟩

/-- C16: the point cloud loops of the two programs are equivalent: on every
depth grid (whose number of columns is a value of an `int`), every intrinsics
and every depth range each iteration gives the same buffer and the two blocks
give the same result; on a well formed grid of fewer than `2 ^ 31` cells both
give the same cloud, which has a written slot exactly at the accepted pixels
and the same `(X, Y, Z)` there. -/
theorem loops_equivalent (m : Mat Fp) (fx fy cx cy mn mx : Fp) (hc : m.cols < 2 ^ 31) :
    createPointCloud_example m fx fy cx cy mn mx
        = createPointCloud_detectball m fx fy cx cy mn mx ∧
      (∀ (buf : List Vec3) (idx : Nat),
        loopBody_example (m.cols : Int) m.data fx fy cx cy mn mx buf (idx : Int)
          = loopBody_detectball (m.cols : Int) m.data fx fy cx cy mn mx buf idx) ∧
      (m.WF → m.rows * m.cols < 2 ^ 31 →
        ∃ cloud, createPointCloud_example m fx fy cx cy mn mx = some cloud ∧
          createPointCloud_detectball m fx fy cx cy mn mx = some cloud ∧
          ∀ (idx : Nat) (d : Fp), m.data[idx]? = some d →
            (cloud.data[idx]? ≠ some sentinel ↔ accepted d mn mx = true) ∧
            cloud.data[idx]? = some
              (if accepted d mn mx = true then
                backProject ((idx / m.cols : Nat) : Int) ((idx % m.cols : Nat) : Int) d
                  fx fy cx cy
               else sentinel)) := by
  refine ⟨createPointCloud_same m fx fy cx cy mn mx hc,
    fun buf idx => loopBody_same m.cols hc m.data fx fy cx cy mn mx buf idx, ?_⟩
  intro hwf hsz
  refine ⟨_, createPointCloud_example_eq m fx fy cx cy mn mx hwf hsz,
    createPointCloud_detectball_eq m fx fy cx cy mn mx hwf hsz, ?_⟩
  intro idx d hd
  have hslot := cloudOf_getElem? m fx fy cx cy mn mx hwf idx d hd
  refine ⟨?_, hslot⟩
  rw [hslot]
  unfold slotOf
  by_cases hacc : accepted d mn mx = true
  · rw [if_pos hacc]
    constructor
    · intro _
      exact hacc
    · intro _ he
      exact backProject_ne_sentinel _ _ d fx fy cx cy ((accepted_iff d mn mx).mp hacc).1
        (Option.some.inj he)
  · rw [if_neg hacc]
    constructor
    · intro h
      exact absurd rfl h
    · intro h
      exact absurd h hacc

/-- Witness of C16: a 2x2 depth map. -/
theorem loops_equivalent_witness :
    createPointCloud_example ⟨2, 2, [Fp.fin 1000, Fp.pinf, Fp.nan, Fp.fin 2000]⟩
        (Fp.fin 500) (Fp.fin 500) (Fp.fin 0) (Fp.fin 0) (Fp.fin 300) (Fp.fin 10000)
      = createPointCloud_detectball ⟨2, 2, [Fp.fin 1000, Fp.pinf, Fp.nan, Fp.fin 2000]⟩
        (Fp.fin 500) (Fp.fin 500) (Fp.fin 0) (Fp.fin 0) (Fp.fin 300) (Fp.fin 10000) :=
  (loops_equivalent ⟨2, 2, [Fp.fin 1000, Fp.pinf, Fp.nan, Fp.fin 2000]⟩
    (Fp.fin 500) (Fp.fin 500) (Fp.fin 0) (Fp.fin 0) (Fp.fin 300) (Fp.fin 10000)
    (by norm_num)).1

/-- C17: if the configured range is empty or inverted
(`minDepth_mm >= maxDepth_mm`) then no depth is accepted and, for every depth
grid, every slot of the cloud is the NaN vector; and when `minDepth_mm >= 0`
the test `depth >= 0` is redundant: a depth is accepted if and only if it is
not infinite and `minDepth_mm < depth < maxDepth_mm`. -/
theorem empty_range_and_redundant_test (p : Program) (m : Mat Fp) (fx fy cx cy mn mx : Fp)
    (hwf : m.WF) (hsz : m.rows * m.cols < 2 ^ 31) :
    (Fp.ge mn mx = true →
      (∀ d : Fp, accepted d mn mx = false) ∧
      createPointCloud p m fx fy cx cy mn mx
        = some ⟨m.rows, m.cols, List.replicate (m.rows * m.cols) sentinel⟩) ∧
    (Fp.ge mn (Fp.fin 0) = true →
      ∀ d : Fp, accepted d mn mx = true ↔
        (d.isinf = false ∧ Fp.lt mn d = true ∧ Fp.lt d mx = true)) := by
  refine ⟨?_, fun h d => accepted_iff_of_min_nonneg d mn mx h⟩
  intro h
  refine ⟨fun d => empty_range_rejects d mn mx h, ?_⟩
  rw [createPointCloud_eq p m fx fy cx cy mn mx hwf hsz]
  congr 1
  unfold cloudOf
  congr 1
  rw [List.eq_replicate_iff]
  refine ⟨by simp, ?_⟩
  intro b hb
  rw [List.mem_map] at hb
  obtain ⟨idx, _, rfl⟩ := hb
  unfold slotOf
  rw [empty_range_rejects _ mn mx h]
  rfl

/-- Witness of C17: a 1x2 depth map with the inverted range (10000, 300). -/
theorem empty_range_and_redundant_test_witness :
    createPointCloud Program.zed_oc_depth_example ⟨1, 2, [Fp.fin 1000, Fp.fin 5000]⟩
        (Fp.fin 500) (Fp.fin 500) (Fp.fin 0) (Fp.fin 0) (Fp.fin 10000) (Fp.fin 300)
      = some ⟨1, 2, List.replicate (1 * 2) sentinel⟩ :=
  ((empty_range_and_redundant_test Program.zed_oc_depth_example
    ⟨1, 2, [Fp.fin 1000, Fp.fin 5000]⟩
    (Fp.fin 500) (Fp.fin 500) (Fp.fin 0) (Fp.fin 0) (Fp.fin 10000) (Fp.fin 300)
    ⟨rfl, by norm_num, by norm_num⟩ (by norm_num)).1 (by decide)).2

/-- C18: in the capture loop a delivered frame is processed if and only if
`frame.data` is not null and `frame.timestamp` differs from `last_ts`, and
after processing `last_ts` is the timestamp of the frame; the same frame
delivered a second time in a row is not processed again; and in every run
from the initial state (`last_ts = 0`) a frame of timestamp 0 is processed
only after a frame of a non zero timestamp has been. -/
theorem frame_processed_iff (p : Program) (cvResize : Fp → Mat Fp → Mat Fp) (s : Session)
    (st : GrabState) (frame : Frame) (frames : List Frame) (hwf : frame.WF cvResize)
    (hfs : ∀ f ∈ frames, f.WF cvResize) :
    (∃ st', grabStep p cvResize s st frame = some st' ∧
      ((frame.data = true ∧ frame.timestamp ≠ st.last_ts) →
        st'.processed = st.processed ++ [frame.timestamp] ∧ st'.last_ts = frame.timestamp) ∧
      (¬ (frame.data = true ∧ frame.timestamp ≠ st.last_ts) → st' = st) ∧
      (st'.processed ≠ st.processed ↔ (frame.data = true ∧ frame.timestamp ≠ st.last_ts)) ∧
      grabStep p cvResize s st' frame = some st') ∧
    (∃ st', grabLoop p cvResize s GrabState.init frames = some st' ∧
      st'.last_ts = st'.processed.getLast?.getD 0 ∧
      st'.processed.head? ≠ some 0 ∧
      ∀ i : Nat, st'.processed[i]? = some 0 →
        ∃ (j : Nat) (t : Nat), j < i ∧ st'.processed[j]? = some t ∧ t ≠ 0) := by
  constructor
  · obtain ⟨st1, hs1, hnew, hold⟩ := grabStep_cases p cvResize s st frame hwf
    refine ⟨st1, hs1, hnew, hold, ?_, ?_⟩
    · constructor
      · intro hne
        by_contra h
        exact hne (by rw [hold h])
      · intro h hp
        have hlen := congrArg List.length ((hnew h).1.symm.trans hp)
        simp at hlen
    · apply grabStep_old
      rintro ⟨hd, ht⟩
      by_cases h : frame.data = true ∧ frame.timestamp ≠ st.last_ts
      · exact ht (hnew h).2.symm
      · rw [hold h] at ht
        exact h ⟨hd, ht⟩
  · obtain ⟨st1, hs1, hhead, hlast⟩ :=
      grabLoop_inv p cvResize s frames GrabState.init hfs (by simp [GrabState.init]) rfl
    refine ⟨st1, hs1, hlast, hhead, ?_⟩
    intro i hi
    cases hproc : st1.processed with
    | nil =>
      rw [hproc] at hi
      simp at hi
    | cons a as =>
      rw [hproc] at hi hhead
      have ha : a ≠ 0 := by simpa using hhead
      cases i with
      | zero =>
        simp only [List.getElem?_cons_zero, Option.some.injEq] at hi
        exact absurd hi ha
      | succ k => exact ⟨0, a, Nat.succ_pos k, by simp, ha⟩

/-- Witness of C18: a run of four deliveries: a frame of timestamp 0, a frame
of timestamp 7 twice, and a frame without data. -/
theorem frame_processed_iff_witness :
    ∃ st', grabLoop Program.detectball_test (fun _ m => upsample2 m)
        ⟨Fp.fin 1000, Fp.fin 1000, Fp.fin 0, Fp.fin 0, Fp.fin 120, 1, Fp.fin 300, Fp.fin 10000⟩
        GrabState.init
        [⟨true, 0, ⟨1, 1, [320]⟩⟩, ⟨true, 7, ⟨1, 1, [320]⟩⟩, ⟨true, 7, ⟨1, 1, [320]⟩⟩,
          ⟨false, 9, ⟨1, 1, [160]⟩⟩] = some st' ∧
      st'.last_ts = st'.processed.getLast?.getD 0 ∧
      st'.processed.head? ≠ some 0 := by
  obtain ⟨_, st1, h1, h2, h3, _⟩ := frame_processed_iff Program.detectball_test
    (fun _ m => upsample2 m)
    ⟨Fp.fin 1000, Fp.fin 1000, Fp.fin 0, Fp.fin 0, Fp.fin 120, 1, Fp.fin 300, Fp.fin 10000⟩
    GrabState.init ⟨true, 7, ⟨1, 1, [320]⟩⟩
    [⟨true, 0, ⟨1, 1, [320]⟩⟩, ⟨true, 7, ⟨1, 1, [320]⟩⟩, ⟨true, 7, ⟨1, 1, [320]⟩⟩,
      ⟨false, 9, ⟨1, 1, [160]⟩⟩]
    ⟨⟨rfl, by decide, by decide⟩, by decide⟩
    (by
      intro f hf
      simp only [List.mem_cons, List.mem_singleton, List.not_mem_nil, or_false] at hf
      rcases hf with h | h | h | h <;> subst h <;>
        exact ⟨⟨rfl, by decide, by decide⟩, by decide⟩)
  exact ⟨st1, h1, h2, h3⟩

/-- C19: the point cloud loop is total for every grid (of fewer than `2 ^ 31`
cells), an empty one included: the loop returns the buffer of `cols * rows`
slots; when `cols = 0` or `rows = 0`, `buf_size = 0`, the range of the loop is
empty, the body, which would divide by `cols`, is never run and the buffer is
empty; and when `cols >= 1` every index `idx` of the loop satisfies
`idx < buf_size = cols * rows`, is inside `depth_vec` and `buffer`, and the
body returns a buffer of the same length. -/
theorem point_cloud_loop_total (p : Program) (m : Mat Fp) (fx fy cx cy mn mx : Fp)
    (hwf : m.WF) (hsz : m.rows * m.cols < 2 ^ 31) :
    (∃ buffer, pointCloudLoop p m fx fy cx cy mn mx = some buffer ∧
        buffer.length = m.cols * m.rows) ∧
      mulInt32 (m.cols : Int) (m.rows : Int) = ((m.cols * m.rows : Nat) : Int) ∧
      ((m.cols = 0 ∨ m.rows = 0) →
        mulInt32 (m.cols : Int) (m.rows : Int) = 0 ∧
        toSizeT (mulInt32 (m.cols : Int) (m.rows : Int)) = 0 ∧
        List.range (mulInt32 (m.cols : Int) (m.rows : Int)).toNat = [] ∧
        pointCloudLoop p m fx fy cx cy mn mx = some []) ∧
      (∀ (buf : List Vec3) (idx : Nat),
        loopBody_example_ieee 0 m.data fx fy cx cy mn mx buf (idx : Int) = none ∧
        loopBody_detectball_ieee 0 m.data fx fy cx cy mn mx buf idx = none) ∧
      (1 ≤ m.cols →
        ∀ idx ∈ List.range (mulInt32 (m.cols : Int) (m.rows : Int)).toNat,
          idx < m.cols * m.rows ∧ idx < m.data.length ∧
          ∀ buf : List Vec3, buf.length = m.cols * m.rows →
            idx < buf.length ∧
            (∃ buf', loopBody_example_ieee (m.cols : Int) m.data fx fy cx cy mn mx buf
                (idx : Int) = some buf' ∧ buf'.length = buf.length) ∧
            (∃ buf', loopBody_detectball_ieee (m.cols : Int) m.data fx fy cx cy mn mx buf idx
                = some buf' ∧ buf'.length = buf.length)) := by
  have hmul : mulInt32 (m.cols : Int) (m.rows : Int) = ((m.cols * m.rows : Nat) : Int) := by
    rw [mulInt32_dims m.rows m.cols hsz, Nat.mul_comm]
  have hloop := pointCloudLoop_eq p m fx fy cx cy mn mx hwf hsz
  have hlen := bufferOf_ieee_length p m fx fy cx cy mn mx
  refine ⟨⟨_, hloop, by rw [hlen, Nat.mul_comm]⟩, hmul, ?_, ?_, ?_⟩
  · intro h0
    have hz : m.rows * m.cols = 0 := by
      rcases h0 with h | h <;> simp [h]
    have hz2 : m.cols * m.rows = 0 := by rw [Nat.mul_comm]; exact hz
    refine ⟨by rw [hmul, hz2]; rfl, by rw [hmul, hz2]; rfl, by rw [hmul, hz2]; rfl, ?_⟩
    rw [hloop]
    rw [hz] at hlen
    rw [List.length_eq_zero.mp hlen]
  · intro buf idx
    exact ⟨by simp [loopBody_example_ieee], by simp [loopBody_detectball_ieee, toSizeT]⟩
  · intro hW idx hidx
    rw [hmul, Int.toNat_ofNat, List.mem_range] at hidx
    have hdl : idx < m.data.length := by
      rw [hwf.1, Nat.mul_comm]
      exact hidx
    refine ⟨hidx, hdl, ?_⟩
    intro buf hbuf
    have hb : idx < buf.length := by rw [hbuf]; exact hidx
    refine ⟨hb, ⟨_, loopBody_example_ieee_eq m.cols m.data fx fy cx cy mn mx buf idx (by omega)
      hdl hb, ?_⟩, ⟨_, loopBody_detectball_ieee_eq m.cols m.data fx fy cx cy mn mx buf idx
      (by omega) hwf.2.2 hdl hb, ?_⟩⟩
    · split <;> simp
    · split <;> simp

/-- Witness of C19: the loop on the empty depth map of 3 rows and 0 columns. -/
theorem point_cloud_loop_total_witness :
    mulInt32 ((0 : Nat) : Int) ((3 : Nat) : Int) = 0 ∧
      toSizeT (mulInt32 ((0 : Nat) : Int) ((3 : Nat) : Int)) = 0 ∧
      List.range (mulInt32 ((0 : Nat) : Int) ((3 : Nat) : Int)).toNat = [] ∧
      pointCloudLoop Program.zed_oc_depth_example ⟨3, 0, []⟩
        (Fp.fin 500) (Fp.fin 500) (Fp.fin 0) (Fp.fin 0) (Fp.fin 300) (Fp.fin 10000)
        = some [] :=
  (point_cloud_loop_total Program.zed_oc_depth_example ⟨3, 0, []⟩
    (Fp.fin 500) (Fp.fin 500) (Fp.fin 0) (Fp.fin 0) (Fp.fin 300) (Fp.fin 10000)
    ⟨rfl, by norm_num, by norm_num⟩ (by norm_num)).2.2.1 (Or.inl rfl)

end CamBallToe
